import Mathlib

/-!
# The session state of the query interpreter and `Interpreter::Pull`

A shallow embedding of `src/query/interpreter.hpp`: the slot table
(`query_executions_`), the current-database binding (`CurrentDB`),
`ResetInterpreter`, the template member `Interpreter::Pull`, the two priority
lookups, `ActiveQueryExecutions` and the accessors of `QueryAllocator`; and of
`LabelIndex::AbortProcessor` of `src/storage/v2/indices/label_index.hpp`.

The header only declares the member functions `Commit`, `Abort`,
`AbortCommand` and `LogQueryMessage`, and the closure stored in
`PreparedQuery::query_handler` is built elsewhere.  They are collaborators of
`Pull`: each one is a parameter that takes the interpreter state and hands
back a new one, may raise an exception, or may end the process.  What `Pull`
itself calls is recorded, in call order, in a trace.
-/

namespace memgraph

namespace utils

/-- Modelled from the spec: the enumeration `utils::Priority` (utils/priorities.hpp) is
declared outside the sources at hand; these are the two priorities the header and the
priority law name. -/
inductive Priority where
  | LOW
  | HIGH
  deriving DecidableEq, Repr

end utils

namespace storage

/-! ## `LabelIndex::AbortProcessor` (`src/storage/v2/indices/label_index.hpp`)

`LabelId` and `Vertex` are declared outside the sources at hand: the label type `L` is a
parameter with the total order of its `operator<`, the vertex pointers are values of a
parameter `V`. -/

/-- The loop of `std::lower_bound` over the range `[first, first + count)` of `xs`: the
middle element is compared with `value` and one half is kept.  `count` goes down at every
turn, so `fuel` turns are enough when `count ≤ fuel`. -/
def lower_bound_loop {L : Type} [LinearOrder L] (xs : List L) (value : L) :
    Nat → Nat → Nat → Nat
  | 0, first, _ => first
  | fuel + 1, first, count =>
    if count = 0 then first
    else
      match xs[first + count / 2]? with
      | some x =>
        if x < value then lower_bound_loop xs value fuel (first + count / 2 + 1) (count - (count / 2 + 1))
        else lower_bound_loop xs value fuel first (count / 2)
      | none => first

/-- The algorithm `std::lower_bound(xs.begin(), xs.end(), value)`, as an index into `xs`. -/
def lower_bound {L : Type} [LinearOrder L] (xs : List L) (value : L) : Nat :=
  lower_bound_loop xs value xs.length 0 xs.length

/-- The algorithm `std::binary_search(xs.begin(), xs.end(), value)`: the lower bound is not
the end and `value` is not less than the element there. -/
def binary_search {L : Type} [LinearOrder L] (xs : List L) (value : L) : Bool :=
  match xs[lower_bound xs value]? with
  | some x => !decide (value < x)
  | none => false

/-- The type `LabelIndex::AbortableInfo`, a `std::map<LabelId, std::vector<Vertex *>>`: its
entries in key order. -/
abbrev AbortableInfo (L V : Type) := List (L × List V)

/-- The member `std::map::find`: the vector stored under `label`, if any. -/
def AbortableInfo.find {L V : Type} [LinearOrder L] (label : L) :
    AbortableInfo L V → Option (List V)
  | [] => none
  | (k, vs) :: rest => if label = k then some vs else AbortableInfo.find label rest

/-- The expression `cleanup_collection_[label].emplace_back(vertex)`: `operator[]` makes an
empty entry for `label` when there is none, and the vertex goes to the end of the entry. -/
def AbortableInfo.emplace_back {L V : Type} [LinearOrder L] (label : L) (vertex : V) :
    AbortableInfo L V → AbortableInfo L V
  | [] => [(label, [vertex])]
  | (k, vs) :: rest =>
    if label = k then (k, vs ++ [vertex]) :: rest
    else if label < k then (label, [vertex]) :: (k, vs) :: rest
    else (k, vs) :: AbortableInfo.emplace_back label vertex rest

/-- The `struct LabelIndex::AbortProcessor`. -/
structure AbortProcessor (L V : Type) where
  label_ : List L
  cleanup_collection_ : AbortableInfo L V

/-- The constructor `AbortProcessor(std::vector<LabelId> label)`: the collection is empty. -/
def AbortProcessor.create {L V : Type} (label : List L) : AbortProcessor L V :=
  { label_ := label, cleanup_collection_ := [] }

/-- The member `AbortProcessor::collect_on_label_removal(label, vertex)`. -/
def AbortProcessor.collect_on_label_removal {L V : Type} [LinearOrder L]
    (self : AbortProcessor L V) (label : L) (vertex : V) : AbortProcessor L V :=
  if binary_search self.label_ label then
    { self with
      cleanup_collection_ := AbortableInfo.emplace_back label vertex self.cleanup_collection_ }
  else self

/-- The processor after a sequence of calls of `collect_on_label_removal`, in call order. -/
def AbortProcessor.collect_all {L V : Type} [LinearOrder L] (self : AbortProcessor L V)
    (calls : List (L × V)) : AbortProcessor L V :=
  calls.foldl (fun p call => p.collect_on_label_removal call.1 call.2) self

/-- The vertices of the calls made with `label`, in call order. -/
def vertices_of {L V : Type} [LinearOrder L] (calls : List (L × V)) (label : L) : List V :=
  (calls.filter fun call => decide (call.1 = label)).map Prod.snd

/-- The labels and the calls of the worked example. -/
def exLabels : List Nat := [1, 3, 5]

/-- The calls of the worked example: vertex names with the label removed from each. -/
def exCalls : List (Nat × String) := [(3, "a"), (2, "b"), (3, "c"), (1, "d"), (6, "e")]

end storage

namespace query

/-! ## Values and summaries -/

/-- Modelled from the spec: the class `TypedValue` is declared outside the sources at hand.
A summary holds a boolean continuation flag, the notifications and other values; the
constructors are the ones `Pull` calls, from a `bool` (`TypedValue(true)`), from a
`std::vector<TypedValue>` (the notification list) and from a
`std::map<std::string, TypedValue>` (`Notification::ConvertToMap`), next to the scalar
kinds a summary may hold. -/
inductive TypedValue where
  | null
  | bool (value : Bool)
  | int (value : Int)
  | string (value : String)
  | list (values : List TypedValue)
  | map (entries : List (String × TypedValue))

/-- A `std::map<std::string, TypedValue>`: its entries in key order. -/
abbrev StdMap := List (String × TypedValue)

/-- Lexicographic comparison of two character sequences by character code. -/
def lexLt : List Char → List Char → Bool
  | _, [] => false
  | [], _ :: _ => true
  | a :: as, b :: bs => a.toNat < b.toNat || (a.toNat == b.toNat && lexLt as bs)

/-- The key order of the map, `std::less<std::string>`. -/
def keyLt (a b : String) : Bool := lexLt a.data b.data

/-- The member `std::map::insert_or_assign`: the entry for `k` becomes `v`, every other
entry stays, and the entries stay in key order. -/
def StdMap.insert_or_assign (k : String) (v : TypedValue) : StdMap → StdMap
  | [] => [(k, v)]
  | (k', v') :: rest =>
    if k = k' then (k, v) :: rest
    else if keyLt k k' then (k, v) :: (k', v') :: rest
    else (k', v') :: StdMap.insert_or_assign k v rest

/-- The member `std::map::find`: the value stored under `k`, if any. -/
def StdMap.find (k : String) : StdMap → Option TypedValue
  | [] => none
  | (k', v') :: rest => if k = k' then some v' else StdMap.find k rest

/-! ## The data model of `interpreter.hpp` -/

/-- The `enum class QueryHandlerResult`. -/
inductive QueryHandlerResult where
  | COMMIT
  | ABORT
  | NOTHING
  deriving DecidableEq, Repr

/-- The types that `interpreter.hpp` takes from headers outside it, and never looks into. -/
structure Types where
  /-- The class `Notification`; its only use is `ConvertToMap`. -/
  Notification : Type
  /-- The closures held in `PreparedQuery::query_handler`. -/
  Handler : Type
  /-- The template argument `TStream` of `Pull`. -/
  Stream : Type
  /-- `AuthQuery::Privilege`. -/
  Privilege : Type
  /-- `plan::ReadWriteTypeChecker::RWType`. -/
  RWType : Type
  /-- `storage::Storage::Accessor`. -/
  Accessor : Type
  /-- `DbAccessor`. -/
  DbAccessor : Type
  /-- `TriggerContextCollector`. -/
  TriggerContextCollector : Type
  /-- `QueryUserOrRole`. -/
  QueryUserOrRole : Type
  /-- `utils::AsyncTimer`. -/
  AsyncTimer : Type
  /-- `storage::ExternalPropertyValue::map_t`. -/
  Metadata : Type
  /-- `TransactionStatus`. -/
  TransactionStatus : Type
  /-- `memgraph::system::Transaction`. -/
  SystemTransaction : Type
  /-- `QueryLogger`. -/
  QueryLogger : Type
  /-- `InterpreterContext`. -/
  InterpreterContext : Type
  /-- `FrameChangeCollector`. -/
  FrameChangeCollector : Type
  /-- `storage::IsolationLevel`. -/
  IsolationLevel : Type
  /-- `std::function<void(std::string_view)>`, the type of `on_change_`. -/
  OnChange : Type

/-- The `struct PreparedQuery`. -/
structure PreparedQuery (T : Types) where
  header : List String
  privileges : List T.Privilege
  query_handler : T.Handler
  rw_type : T.RWType
  db : Option String := none
  priority : utils.Priority := utils.Priority.HIGH

/-- Modelled from the spec: `memgraph::dbms::DatabaseAccess`, the handle to the target
database, is declared outside the sources at hand; it is given by the two observations the
header makes of it, `get()->name()` and `is_deleting()`. -/
structure DatabaseAccess where
  name : String
  is_deleting : Bool

/-- The `struct CurrentDB`. -/
structure CurrentDB (T : Types) where
  db_acc_ : Option DatabaseAccess := none
  db_transactional_accessor_ : Option T.Accessor := none
  execution_db_accessor_ : Option T.DbAccessor := none
  trigger_context_collector_ : Option T.TriggerContextCollector := none
  in_explicit_db_ : Bool := false

/-- The member `CurrentDB::SetCurrentDB`. -/
def CurrentDB.SetCurrentDB {T : Types} (self : CurrentDB T) (new_db : DatabaseAccess)
    (in_explicit_db : Bool) : CurrentDB T :=
  { self with db_acc_ := some new_db, in_explicit_db_ := in_explicit_db }

/-- The member `CurrentDB::ResetDB`. -/
def CurrentDB.ResetDB {T : Types} (self : CurrentDB T) : CurrentDB T :=
  { self with
    db_acc_ := none
    db_transactional_accessor_ := none
    execution_db_accessor_ := none
    trigger_context_collector_ := none }

/-- The member `CurrentDB::name`. -/
def CurrentDB.name {T : Types} (self : CurrentDB T) : String :=
  match self.db_acc_ with
  | some db => db.name
  | none => ""

/-- The `struct Interpreter::QueryExecution`, one slot of the table.  The member
`execution_memory` holds no value of its own and is left out. -/
structure QueryExecution (T : Types) where
  prepared_query : Option (PreparedQuery T) := none
  summary : StdMap := []
  notifications : List T.Notification := []

/-- The member `QueryExecution::CleanRuntimeData`. -/
def QueryExecution.CleanRuntimeData {T : Types} (self : QueryExecution T) : QueryExecution T :=
  { self with prepared_query := none, notifications := [] }

/-- The `struct Interpreter::SessionInfo`. -/
structure SessionInfo where
  uuid : String := ""
  username : String := ""
  login_timestamp : String := ""

/-- The data members of `class Interpreter`.  A `std::unique_ptr` or `std::shared_ptr` is an
`Option` (`none` is the null pointer); `query_executions_` is the slot table, a slot's index
is its qid. -/
structure Interpreter (T : Types) where
  user_or_role_ : Option T.QueryUserOrRole := none
  session_info_ : SessionInfo := {}
  in_explicit_transaction_ : Bool := false
  current_db_ : CurrentDB T := {}
  expect_rollback_ : Bool := false
  current_timeout_timer_ : Option T.AsyncTimer := none
  metadata_ : Option T.Metadata := none
  transaction_status_ : T.TransactionStatus
  current_transaction_ : Option Nat := none
  system_transaction_ : Option T.SystemTransaction := none
  query_logger_ : Option T.QueryLogger := none
  query_executions_ : List (Option (QueryExecution T)) := []
  transaction_queries_ : List String := []
  interpreter_context_ : Option T.InterpreterContext := none
  frame_change_collector_ : Option T.FrameChangeCollector := none
  interpreter_isolation_level : Option T.IsolationLevel := none
  next_transaction_isolation_level : Option T.IsolationLevel := none
  on_change_ : Option T.OnChange := none

/-- The member `Interpreter::ResetInterpreter`. -/
def Interpreter.ResetInterpreter {T : Types} (self : Interpreter T) : Interpreter T :=
  let cleared : Interpreter T :=
    { self with query_executions_ := [], system_transaction_ := none, transaction_queries_ := [] }
  match cleared.current_db_.db_acc_ with
  | some db =>
    if db.is_deleting then
      { cleared with current_db_ := { cleared.current_db_ with db_acc_ := none } }
    else cleared
  | none => cleared

/-- Modelled from the spec: the exception classes are declared outside the sources at hand.
An exception that escapes a collaborator is given by the `catch` clause of `Pull` it meets:
`ExplicitTransactionUsageException` (protocol usage), any other class derived from
`utils::BasicException` (an execution error), or a class outside that hierarchy, which no
clause catches. -/
inductive Exception where
  | ExplicitTransactionUsageException (what : String)
  | BasicException (what : String)
  | Unrelated (what : String)
  deriving DecidableEq, Repr

/-- The member `what()` of an exception. -/
def Exception.what : Exception → String
  | .ExplicitTransactionUsageException m => m
  | .BasicException m => m
  | .Unrelated m => m

/-- How a call to a collaborator ends: it returns, it raises, or the process ends inside it.
The state is the one the collaborator leaves behind. -/
inductive Call (σ α : Type) where
  | ret (value : α) (state : σ)
  | raise (e : Exception) (state : σ)
  | terminate

/-- The counters of `memgraph::metrics` declared in the header. -/
inductive Counter where
  | FailedQuery
  | FailedPrepare
  | FailedPull
  | SuccessfulQuery
  deriving DecidableEq, Repr

/-- One call made by `Pull`: to a handler (with the slot index and the row limit), to a
member function of the interpreter, or to `memgraph::metrics`. -/
inductive Event where
  | query_handler (qid : Nat) (n : Option Int)
  | Commit
  | Abort
  | AbortCommand (qid : Nat)
  | LogQueryMessage (message : String)
  | FirstFailedQuery
  | FirstSuccessfulQuery
  | IncrementCounter (counter : Counter)
  deriving DecidableEq, Repr

/-- The code `Pull` calls and this header does not define.  A handler gets the row limit
and may change the whole interpreter (it is a closure) and the stream it writes rows to;
`AbortCommand` gets the address of a slot, here its index. -/
structure Collaborators (T : Types) where
  query_handler : T.Handler → Option Int → Interpreter T × T.Stream →
    Call (Interpreter T × T.Stream) (Option QueryHandlerResult)
  Commit : Interpreter T → Call (Interpreter T) Unit
  Abort : Interpreter T → Call (Interpreter T) Unit
  AbortCommand : Nat → Interpreter T → Call (Interpreter T) Unit
  LogQueryMessage : String → Interpreter T → Call (Interpreter T) Unit
  ConvertToMap : T.Notification → StdMap

/-- What a call of `Pull` works on: the interpreter (`*this`), the caller's stream
(`*result_stream`) and the calls made so far, oldest first. -/
structure World (T : Types) where
  self : Interpreter T
  result_stream : T.Stream
  trace : List Event := []

/-- Modelled from the spec: the macro `MG_ASSERT` is defined outside the sources at hand; a
failed one is a fatal assertion, which ends the process, and not a recoverable error.  These
are the three `MG_ASSERT`s of `Pull`, in source order (lines 495, 508 and 549). -/
inductive Assertion where
  | qid_in_explicit_transaction
  | query_not_finished
  | no_transactional_accessor
  deriving DecidableEq, Repr

/-- The message an assertion prints; the third one has none. -/
def Assertion.message : Assertion → String
  | .qid_in_explicit_transaction => "qid can be only used in explicit transaction!"
  | .query_not_finished => "Query already finished executing!"
  | .no_transactional_accessor => ""

/-- An exception leaving `Pull`: the `InvalidArgumentsException` it constructs itself, or
one raised by a collaborator and passed on. -/
inductive Thrown where
  | InvalidArgumentsException (argument message : String)
  | rethrown (e : Exception)
  deriving DecidableEq, Repr

/-- How a call of `Pull` ends.  `fatal` is a failed `MG_ASSERT` (the process ends);
`terminated` is the process ending inside a collaborator; `undefined` is a use of the
reference `query_execution` after a collaborator removed or reset the slot it refers to.
The last three carry the calls made until then. -/
inductive Exit (T : Types) where
  | ret (summary : StdMap) (w : World T)
  | throw (e : Thrown) (w : World T)
  | fatal (assertion : Assertion) (trace : List Event)
  | terminated (trace : List Event)
  | undefined (trace : List Event)

/-- How the `try` block of `Pull` ends: it runs to its end with `maybe_summary` set or
not, or an exception is on its way to the `catch` clauses, or there is no way on. -/
inductive TryExit (T : Types) where
  | done (maybe_summary : Option StdMap) (w : World T)
  | raised (e : Exception) (w : World T)
  | fatal (assertion : Assertion) (trace : List Event)
  | terminated (trace : List Event)
  | undefined (trace : List Event)

/-! ## `Interpreter::Pull` -/

/-- Conversion of a `size_t` to `int` (`static_cast<int>`), 32 bits wide. -/
def toInt32 (x : Nat) : Int :=
  if x % 2 ^ 32 < 2 ^ 31 then (x % 2 ^ 32 : Nat) else (x % 2 ^ 32 : Nat) - 2 ^ 32

/-- The local `qid_value` of `Pull` and `GetQueryPriority`:
`qid ? *qid : static_cast<int>(query_executions_.size() - 1)`, the subtraction being that of
the 64-bit `size_t`. -/
def qid_value (size : Nat) (qid : Option Int) : Int :=
  match qid with
  | some q => q
  | none => toInt32 ((size + 2 ^ 64 - 1) % 2 ^ 64)

/-- The range test `qid_value < 0 || qid_value >= query_executions_.size()`.  The second
comparison is reached with a non-negative `int` only, which converts to `size_t` without
change. -/
def qid_out_of_range (size : Nat) (qv : Int) : Bool :=
  decide (qv < 0) || decide ((size : Int) ≤ qv)

/-- The entries `Pull` folds into the saved summary (lines 529-536): when the slot has
notifications, their maps, in order, under the key `notifications`. -/
def fold_notifications {T : Types} (env : Collaborators T) (summary : StdMap)
    (notifications : List T.Notification) : StdMap :=
  if notifications.isEmpty then summary
  else
    StdMap.insert_or_assign "notifications"
      (TypedValue.list (notifications.map fun notification =>
        TypedValue.map (env.ConvertToMap notification))) summary

/-- A call to a member function of the interpreter from inside the `try` block: the call is
recorded, then `after` runs on the state it leaves. -/
def try_call {T : Types} (ev : Event) (f : Interpreter T → Call (Interpreter T) Unit)
    (w : World T) (after : World T → TryExit T) : TryExit T :=
  match f w.self with
  | .ret () s => after { w with self := s, trace := w.trace ++ [ev] }
  | .raise e s => .raised e { w with self := s, trace := w.trace ++ [ev] }
  | .terminate => .terminated (w.trace ++ [ev])

/-- The interpreter after `std::move(query_execution->summary)` (line 528) on slot `j`, which
holds `execution`: the summary went to `maybe_summary` and the slot keeps an empty map. -/
def summary_moved {T : Types} (s : Interpreter T) (j : Nat) (execution : QueryExecution T) :
    Interpreter T :=
  { s with query_executions_ := s.query_executions_.set j (some { execution with summary := [] }) }

/-- The branch `if (maybe_res)` of the `try` block (lines 526-563), entered with the state
the handler left, the handler's outcome tag and the slot `query_execution` refers to. -/
def Pull_finished {T : Types} (env : Collaborators T) (w : World T) (j : Nat)
    (res : QueryHandlerResult) (execution : QueryExecution T) : TryExit T :=
  let moved : World T := { w with self := summary_moved w.self j execution }
  let maybe_summary := fold_notifications env execution.summary execution.notifications
  if !moved.self.in_explicit_transaction_ then
    match res with
    | .COMMIT =>
      try_call .Commit env.Commit moved fun w2 =>
        .done (some maybe_summary) { w2 with self := w2.self.ResetInterpreter }
    | .ABORT =>
      try_call .Abort env.Abort moved fun w2 =>
        .done (some maybe_summary) { w2 with self := w2.self.ResetInterpreter }
    | .NOTHING =>
      if moved.self.current_db_.db_transactional_accessor_.isSome then
        .fatal .no_transactional_accessor moved.trace
      else .done (some maybe_summary) { moved with self := moved.self.ResetInterpreter }
  else
    -- query_execution.reset(nullptr)
    .done (some maybe_summary)
      { moved with self := { moved.self with
          query_executions_ := moved.self.query_executions_.set j none } }

/-- The `try` block of `Pull` (lines 514-563) for the slot index `j` and its prepared query. -/
def Pull_try {T : Types} (env : Collaborators T) (w : World T) (n : Option Int) (j : Nat)
    (prepared_query : PreparedQuery T) : TryExit T :=
  let trace := w.trace ++ [Event.query_handler j n]
  match env.query_handler prepared_query.query_handler n (w.self, w.result_stream) with
  | .terminate => .terminated trace
  | .raise e (s, stream) => .raised e { self := s, result_stream := stream, trace := trace }
  | .ret none (s, stream) => .done none { self := s, result_stream := stream, trace := trace }
  | .ret (some res) (s, stream) =>
    match s.query_executions_[j]? with
    | some (some execution) =>
      Pull_finished env { self := s, result_stream := stream, trace := trace } j res execution
    | _ => .undefined trace

/-- A call to a member function of the interpreter from a `catch` clause: an exception it
raises replaces the one being handled. -/
def catch_call {T : Types} (ev : Event) (f : Interpreter T → Call (Interpreter T) Unit)
    (w : World T) (after : World T → Exit T) : Exit T :=
  match f w.self with
  | .ret () s => after { w with self := s, trace := w.trace ++ [ev] }
  | .raise e s => .throw (.rethrown e) { w with self := s, trace := w.trace ++ [ev] }
  | .terminate => .terminated (w.trace ++ [ev])

/-- The two `catch` clauses of `Pull` (lines 564-576). -/
def Pull_catch {T : Types} (env : Collaborators T) (j : Nat) (e : Exception) (w : World T) :
    Exit T :=
  match e with
  | .ExplicitTransactionUsageException what =>
    catch_call (.LogQueryMessage what) (env.LogQueryMessage what) w fun w1 =>
      if j < w1.self.query_executions_.length then
        .throw (.rethrown e)
          { w1 with self := { w1.self with
              query_executions_ := w1.self.query_executions_.set j none } }
      else .undefined w1.trace
  | .BasicException what =>
    catch_call (.LogQueryMessage what) (env.LogQueryMessage what) w fun w1 =>
      let w2 : World T :=
        { w1 with trace := w1.trace ++
            [.FirstFailedQuery, .IncrementCounter .FailedQuery, .IncrementCounter .FailedPull] }
      catch_call (.AbortCommand j) (env.AbortCommand j) w2 fun w3 => .throw (.rethrown e) w3
  | .Unrelated _ => .throw (.rethrown e) w

/-- The code after the `try` block (lines 578-588). -/
def Pull_return {T : Types} (maybe_summary : Option StdMap) (w : World T) : Exit T :=
  match maybe_summary with
  | some summary =>
    .ret (StdMap.insert_or_assign "has_more" (TypedValue.bool false) summary)
      { w with trace := w.trace ++ [.FirstSuccessfulQuery, .IncrementCounter .SuccessfulQuery] }
  | none => .ret [("has_more", TypedValue.bool true)] w

/-- The member template `Interpreter::Pull(result_stream, n, qid)`. -/
def Interpreter.Pull {T : Types} (env : Collaborators T) (w : World T) (n qid : Option Int) :
    Exit T :=
  if !(w.self.in_explicit_transaction_ || qid.isNone) then
    .fatal .qid_in_explicit_transaction w.trace
  else
    let qv := qid_value w.self.query_executions_.length qid
    if qid_out_of_range w.self.query_executions_.length qv then
      .throw (.InvalidArgumentsException "qid" "Query with specified ID does not exist!") w
    else if n.any (fun limit => decide (limit < 0)) then
      .throw (.InvalidArgumentsException "n" "Cannot fetch negative number of results!") w
    else
      let j := qv.toNat
      match (w.self.query_executions_.getD j none).bind (fun e => e.prepared_query) with
      | none => .fatal .query_not_finished w.trace
      | some prepared_query =>
        match Pull_try env w n j prepared_query with
        | .done maybe_summary w1 => Pull_return maybe_summary w1
        | .raised e w1 => Pull_catch env j e w1
        | .fatal a t => .fatal a t
        | .terminated t => .terminated t
        | .undefined t => .undefined t

/-! ## The priority lookups -/

/-- How a priority lookup ends: with a priority, with the `InvalidArgumentsException` it
throws, or in a dereference of a reset slot or of an empty `prepared_query`, for which the
language defines no behaviour.  Both lookups are `const` members: there is no state after
them other than the state before. -/
inductive PriorityExit where
  | ret (priority : utils.Priority)
  | throw (e : Thrown)
  | undefined
  deriving DecidableEq, Repr

/-- The member `Interpreter::GetQueryPriority(qid)`. -/
def Interpreter.GetQueryPriority {T : Types} (self : Interpreter T) (qid : Option Int) :
    PriorityExit :=
  let qv := qid_value self.query_executions_.length qid
  if qid_out_of_range self.query_executions_.length qv then
    .throw (.InvalidArgumentsException "qid" "Query with specified ID does not exist!")
  else
    match self.query_executions_.getD qv.toNat none with
    | some execution =>
      match execution.prepared_query with
      | some prepared_query => .ret prepared_query.priority
      | none => .undefined
    | none => .undefined

/-- The member `Interpreter::ApproximateNextQueryPriority()`. -/
def Interpreter.ApproximateNextQueryPriority {T : Types} (self : Interpreter T) : PriorityExit :=
  if self.in_explicit_transaction_ then .ret utils.Priority.LOW
  else if self.query_executions_.isEmpty then .ret utils.Priority.HIGH
  else
    match self.query_executions_.getLast? with
    | some (some execution) =>
      match execution.prepared_query with
      | some prepared_query => .ret prepared_query.priority
      | none => .undefined
    | _ => .undefined

/-! ## `QueryAllocator` -/

/-- A `utils::MemoryResource *`, by the object it points to: the function-local static of
`upstream_resource()`, of which there is one in the process, or the member `monotonic` or
`pool` of the allocator at the given address (an allocator can be neither copied nor moved,
so its address names it). -/
inductive MemoryResource where
  | upstream
  | monotonic (allocator : Nat)
  | pool (allocator : Nat)
  deriving DecidableEq, Repr

/-- Modelled from the spec: the class `utils::MonotonicBufferResource` is declared outside
the sources at hand; it is the bump arena, given by the arguments of its initialiser: the
initial size and the resource it allocates from. -/
structure MonotonicBufferResource where
  initial_size : Nat
  memory : MemoryResource
  deriving DecidableEq, Repr

/-- Modelled from the spec: the class `utils::PoolResource` is declared outside the sources
at hand; it is the pool for small-object reuse backed by a bump arena, given by the
arguments of its initialiser: the blocks per chunk, the resource that backs the pool, and
the resource for what the pool does not serve. -/
structure PoolResource where
  blocks_per_chunk : Nat
  backing : MemoryResource
  unpooled : MemoryResource
  deriving DecidableEq, Repr

/-- The `struct QueryAllocator`: the object at an address. -/
structure QueryAllocator where
  address : Nat
  deriving DecidableEq, Repr

/-- The constant `QueryAllocator::kMonotonicInitialSize`. -/
def QueryAllocator.kMonotonicInitialSize : Nat := 4 * 1024

/-- The constant `QueryAllocator::kPoolBlockPerChunk`. -/
def QueryAllocator.kPoolBlockPerChunk : Nat := 64

/-- The constant `QueryAllocator::kPoolMaxBlockSize`. -/
def QueryAllocator.kPoolMaxBlockSize : Nat := 1024

/-- The static member `QueryAllocator::upstream_resource()`: the address of its static local. -/
def QueryAllocator.upstream_resource : MemoryResource := MemoryResource.upstream

/-- The member `monotonic`, which exists when `MG_MEMORY_PROFILE` is not defined. -/
def QueryAllocator.monotonic (MG_MEMORY_PROFILE : Bool) (_self : QueryAllocator) :
    Option MonotonicBufferResource :=
  if MG_MEMORY_PROFILE then none
  else some { initial_size := QueryAllocator.kMonotonicInitialSize,
              memory := QueryAllocator.upstream_resource }

/-- The member `pool`, which exists when `MG_MEMORY_PROFILE` is not defined. -/
def QueryAllocator.pool (MG_MEMORY_PROFILE : Bool) (self : QueryAllocator) :
    Option PoolResource :=
  if MG_MEMORY_PROFILE then none
  else some { blocks_per_chunk := QueryAllocator.kPoolBlockPerChunk,
              backing := MemoryResource.monotonic self.address,
              unpooled := QueryAllocator.upstream_resource }

/-- The member `QueryAllocator::resource()`. -/
def QueryAllocator.resource (MG_MEMORY_PROFILE : Bool) (self : QueryAllocator) : MemoryResource :=
  if MG_MEMORY_PROFILE then QueryAllocator.upstream_resource else MemoryResource.pool self.address

/-- The member `QueryAllocator::resource_without_pool()`. -/
def QueryAllocator.resource_without_pool (MG_MEMORY_PROFILE : Bool) (self : QueryAllocator) :
    MemoryResource :=
  if MG_MEMORY_PROFILE then QueryAllocator.upstream_resource
  else MemoryResource.monotonic self.address

/-- The member `QueryAllocator::resource_without_pool_or_mono()`. -/
def QueryAllocator.resource_without_pool_or_mono (_MG_MEMORY_PROFILE : Bool)
    (_self : QueryAllocator) : MemoryResource :=
  QueryAllocator.upstream_resource

/-! ## Vocabulary of the statements -/

/-- The calls made up to the end of a call of `Pull`. -/
def Exit.trace {T : Types} : Exit T → List Event
  | .ret _ w => w.trace
  | .throw _ w => w.trace
  | .fatal _ t => t
  | .terminated t => t
  | .undefined t => t

/-- The slot index `Pull` resolves its `qid` argument to. -/
def slot_index {T : Types} (w : World T) (qid : Option Int) : Nat :=
  (qid_value w.self.query_executions_.length qid).toNat

/-- The prepared query of slot `j`, when the slot is present and live. -/
def live_query {T : Types} (s : Interpreter T) (j : Nat) : Option (PreparedQuery T) :=
  (s.query_executions_.getD j none).bind fun e => e.prepared_query

/-- A call `Pull(result_stream, n, qid)` gets as far as the handler of slot `j`, whose
prepared query is `pq`: the qid is allowed (line 495), in range (line 498), the row limit
is not negative (line 502), and the slot is live (line 508). -/
structure Addresses {T : Types} (w : World T) (n qid : Option Int) (j : Nat)
    (pq : PreparedQuery T) : Prop where
  qid_allowed : w.self.in_explicit_transaction_ = true ∨ qid = none
  not_negative : 0 ≤ qid_value w.self.query_executions_.length qid
  in_range : qid_value w.self.query_executions_.length qid < w.self.query_executions_.length
  index : j = slot_index w qid
  limit : ∀ k, n = some k → 0 ≤ k
  live : live_query w.self j = some pq

/-- The two accessors of the binding are either both absent or both present. -/
def CurrentDB.accessors_paired {T : Types} (self : CurrentDB T) : Prop :=
  self.db_transactional_accessor_.isSome = self.execution_db_accessor_.isSome

/-- The constructor `CurrentDB() = default`: every member has its default initialiser. -/
def CurrentDB.default {T : Types} : CurrentDB T := {}

/-- The constructor `CurrentDB(db_acc)`: the handle is set, the rest is as by default. -/
def CurrentDB.of {T : Types} (db_acc : DatabaseAccess) : CurrentDB T := { db_acc_ := some db_acc }

/-- The calls of the trace `t` that increment the counter `c`. -/
def increments (c : Counter) (t : List Event) : Nat := t.count (Event.IncrementCounter c)

/-! ## Worked examples -/

/-- The handlers of the worked examples, by what they do when called: finish with an
outcome tag, ask for another `Pull`, raise, or finish after leaving the explicit
transaction. -/
inductive Script where
  | finish (res : QueryHandlerResult)
  | more
  | fail (e : Exception)
  | leave (res : QueryHandlerResult)

/-- The types of the worked examples: scripted handlers, notifications that are their
title, a stream that is the list of rows written. -/
def ExT : Types where
  Notification := String
  Handler := Script
  Stream := List (List TypedValue)
  Privilege := Unit
  RWType := Unit
  Accessor := Unit
  DbAccessor := Unit
  TriggerContextCollector := Unit
  QueryUserOrRole := Unit
  AsyncTimer := Unit
  Metadata := Unit
  TransactionStatus := Unit
  SystemTransaction := Unit
  QueryLogger := Unit
  InterpreterContext := Unit
  FrameChangeCollector := Unit
  IsolationLevel := Unit
  OnChange := Unit

/-- The collaborators of the worked examples: handlers follow their script, the member
functions return at once, a notification converts to a map with its title. -/
def exEnv : Collaborators ExT where
  query_handler := fun h _ st =>
    match h with
    | .finish res => .ret (some res) st
    | .more => .ret none st
    | .fail e => .raise e st
    | .leave res => .ret (some res) ({ st.1 with in_explicit_transaction_ := false }, st.2)
  Commit := fun s => .ret () s
  Abort := fun s => .ret () s
  AbortCommand := fun _ s => .ret () s
  LogQueryMessage := fun _ s => .ret () s
  ConvertToMap := fun title => [("title", TypedValue.string title)]

/-- A prepared query with the handler `h`. -/
def exQuery (h : Script) : PreparedQuery ExT :=
  { header := ["n"], privileges := [], query_handler := h, rw_type := () }

/-- A live slot with the handler `h`, a summary that already has a `has_more` entry, and
two notifications. -/
def exSlot (h : Script) : QueryExecution ExT :=
  { prepared_query := some (exQuery h)
    summary := [("has_more", TypedValue.int 7), ("rows", TypedValue.int 3)]
    notifications := ["first", "second"] }

/-- A live slot with the handler `h`, and neither summary entries nor notifications. -/
def exBare (h : Script) : QueryExecution ExT :=
  { prepared_query := some (exQuery h) }

/-- A session with the given transaction flag and slot table. -/
def exSession (in_explicit_transaction : Bool) (slots : List (Option (QueryExecution ExT))) :
    World ExT :=
  { self := { transaction_status_ := (), in_explicit_transaction_ := in_explicit_transaction,
              query_executions_ := slots },
    result_stream := [] }

/-- The map `Pull` returns when the handler of an `exSlot` finishes: the summary of the
slot with `has_more` overwritten and the two notifications folded in. -/
def exReturned : StdMap :=
  [("has_more", TypedValue.bool false),
    ("notifications", TypedValue.list
      [TypedValue.map [("title", TypedValue.string "first")],
        TypedValue.map [("title", TypedValue.string "second")]]),
    ("rows", TypedValue.int 3)]

/-- The world after `Pull`, without qid, on
`exSession false [some (exSlot .more), some (exSlot (.finish .ABORT))]` returned: the table
is empty and `Abort` was called. -/
def exAfterAbort : World ExT :=
  { self := { transaction_status_ := () }, result_stream := [],
    trace := [Event.query_handler 1 none, Event.Abort, Event.FirstSuccessfulQuery,
      Event.IncrementCounter Counter.SuccessfulQuery] }

/-- Collaborators like `exEnv` whose handlers finish with NOTHING whatever tag the script
names. -/
def exEnvNothing : Collaborators ExT :=
  { exEnv with
    query_handler := fun h _ st =>
      match h with
      | .finish _ => .ret (some .NOTHING) st
      | .more => .ret none st
      | .fail e => .raise e st
      | .leave _ => .ret (some .NOTHING) ({ st.1 with in_explicit_transaction_ := false }, st.2) }

/-- The world after `Pull`, without qid, on `exSession false [some (exBare (.finish .COMMIT))]`
returned: the table is empty and `Commit` was called. -/
def exAfterCommit : World ExT :=
  { self := { transaction_status_ := () }, result_stream := [],
    trace := [Event.query_handler 0 none, Event.Commit, Event.FirstSuccessfulQuery,
      Event.IncrementCounter Counter.SuccessfulQuery] }

/-- The world after `Pull` with qid 0 on `exSession true [some (exBare (.finish .COMMIT))]`
returned: slot 0 is reset. -/
def exAfterRetire : World ExT :=
  { self := { transaction_status_ := (), in_explicit_transaction_ := true,
              query_executions_ := [none] },
    result_stream := [],
    trace := [Event.query_handler 0 none, Event.FirstSuccessfulQuery,
      Event.IncrementCounter Counter.SuccessfulQuery] }

/-- A session outside an explicit transaction whose table has `2 ^ 31 + 1` slots: `2 ^ 31`
retired ones and then a live one. -/
def exHuge : World ExT :=
  exSession false (List.replicate (2 ^ 31) none ++ [some (exSlot (.finish .COMMIT))])

/-- A prepared query of the examples with the given priority. -/
def exPrioritised (p : utils.Priority) : PreparedQuery ExT :=
  { exQuery .more with priority := p }

/-- The interpreter of the examples with the given transaction flag and slot table. -/
def exInterpreter (in_explicit_transaction : Bool)
    (slots : List (Option (QueryExecution ExT))) : Interpreter ExT :=
  (exSession in_explicit_transaction slots).self

/-- A table of `2 ^ 31 + 1` slots: `2 ^ 31` retired ones and then a live one of priority LOW. -/
def exHugeTable : List (Option (QueryExecution ExT)) :=
  List.replicate (2 ^ 31) none ++ [some { prepared_query := some (exPrioritised .LOW) }]

/-- Collaborators like `exEnv` whose failing handlers raise an execution error with the
message of the script. -/
def exEnvBasic : Collaborators ExT :=
  { exEnv with
    query_handler := fun h _ st =>
      match h with
      | .finish res => .ret (some res) st
      | .more => .ret none st
      | .fail e => .raise (.BasicException e.what) st
      | .leave res => .ret (some res) ({ st.1 with in_explicit_transaction_ := false }, st.2) }

/-- A binding of the examples with both accessors open. -/
def exBinding : CurrentDB ExT :=
  { db_transactional_accessor_ := some (), execution_db_accessor_ := some () }

/-- The world after `Pull` with qid 0 on
`exSession true [some (exSlot (.leave .NOTHING)), some (exSlot .more)]` returned: the handler
left the explicit transaction, and the table is empty. -/
def exAfterLeave : World ExT :=
  { self := { transaction_status_ := () }, result_stream := [],
    trace := [Event.query_handler 0 none, Event.FirstSuccessfulQuery,
      Event.IncrementCounter Counter.SuccessfulQuery] }

/-- The world after `Pull`, without qid and outside an explicit transaction, on a table
whose only slot has a handler that raises an `ExplicitTransactionUsageException`: the slot
is reset and stays in the table. -/
def exAfterUsageError : World ExT :=
  { self := { transaction_status_ := (), query_executions_ := [none] }, result_stream := [],
    trace := [Event.query_handler 0 none, Event.LogQueryMessage "no transaction"] }

/-! ## Lemmas -/

theorem StdMap.find_insert_or_assign_self (k : String) (v : TypedValue) (m : StdMap) :
    StdMap.find k (StdMap.insert_or_assign k v m) = some v := by
  induction m with
  | nil => simp [StdMap.insert_or_assign, StdMap.find]
  | cons p rest ih =>
    obtain ⟨k', v'⟩ := p
    unfold StdMap.insert_or_assign
    by_cases h1 : k = k'
    · simp [h1, StdMap.find]
    · by_cases h2 : keyLt k k' = true
      · simp [h1, h2, StdMap.find]
      · simp [h1, h2, StdMap.find, ih]

theorem StdMap.find_insert_or_assign_of_ne {k k' : String} (h : k' ≠ k) (v : TypedValue)
    (m : StdMap) : StdMap.find k' (StdMap.insert_or_assign k v m) = StdMap.find k' m := by
  induction m with
  | nil => simp [StdMap.insert_or_assign, StdMap.find, h]
  | cons p rest ih =>
    obtain ⟨k2, v2⟩ := p
    unfold StdMap.insert_or_assign
    by_cases h1 : k = k2
    · subst h1
      simp [StdMap.find, h]
    · by_cases h2 : keyLt k k2 = true
      · simp [h1, h2, StdMap.find, h]
      · by_cases h3 : k' = k2
        · simp [h1, h2, StdMap.find, h3]
        · simp [h1, h2, StdMap.find, h3, ih]

theorem Pull_catch_ne_ret {T : Types} (env : Collaborators T) (j : Nat) (e : Exception)
    (w : World T) (m : StdMap) (w' : World T) : Pull_catch env j e w ≠ .ret m w' := by
  unfold Pull_catch catch_call
  intro h
  split at h
  · split at h
    · simp only at h
      split at h <;> simp at h
    · simp at h
    · simp at h
  · split at h
    · simp only at h
      split at h <;> simp at h
    · simp at h
    · simp at h
  · simp at h

/-- Once the checks of `Pull` are passed, `Pull` is its `try` block followed by the
`catch` clauses or the return. -/
theorem Pull_of_live {T : Types} (env : Collaborators T) (w : World T) (n qid : Option Int)
    (pq : PreparedQuery T)
    (hassert : (w.self.in_explicit_transaction_ || qid.isNone) = true)
    (hrange : qid_out_of_range w.self.query_executions_.length
      (qid_value w.self.query_executions_.length qid) = false)
    (hn : n.any (fun limit => decide (limit < 0)) = false)
    (hlive : live_query w.self (slot_index w qid) = some pq) :
    Interpreter.Pull env w n qid =
      match Pull_try env w n (slot_index w qid) pq with
      | .done maybe_summary w1 => Pull_return maybe_summary w1
      | .raised e w1 => Pull_catch env (slot_index w qid) e w1
      | .fatal a t => .fatal a t
      | .terminated t => .terminated t
      | .undefined t => .undefined t := by
  unfold live_query slot_index at hlive
  unfold Interpreter.Pull
  simp only [hassert, hrange, hn, hlive, slot_index]
  simp

/-- A call of `Pull` that returns has passed the checks and its `try` block ran to the end. -/
theorem Pull_ret_inv {T : Types} {env : Collaborators T} {w : World T} {n qid : Option Int}
    {m : StdMap} {w' : World T} (h : Interpreter.Pull env w n qid = .ret m w') :
    ∃ pq maybe_summary w1,
      (w.self.in_explicit_transaction_ || qid.isNone) = true ∧
      qid_out_of_range w.self.query_executions_.length
        (qid_value w.self.query_executions_.length qid) = false ∧
      n.any (fun limit => decide (limit < 0)) = false ∧
      live_query w.self (slot_index w qid) = some pq ∧
      Pull_try env w n (slot_index w qid) pq = .done maybe_summary w1 ∧
      Pull_return maybe_summary w1 = .ret m w' := by
  unfold Interpreter.Pull at h
  split at h
  · simp at h
  · rename_i hassert
    simp only at h
    split at h
    · simp at h
    · rename_i hrange
      split at h
      · simp at h
      · rename_i hn
        split at h
        · simp at h
        · rename_i pq hlive
          split at h
          · rename_i ms w1 htry
            refine ⟨pq, ms, w1, ?_, ?_, ?_, hlive, htry, h⟩
            · revert hassert
              cases w.self.in_explicit_transaction_ <;> cases qid <;> simp
            · simpa using hrange
            · simpa using hn
          · exact absurd h (Pull_catch_ne_ret _ _ _ _ _ _)
          · simp at h
          · simp at h
          · simp at h

theorem Addresses.checks {T : Types} {w : World T} {n qid : Option Int} {j : Nat}
    {pq : PreparedQuery T} (h : Addresses w n qid j pq) :
    (w.self.in_explicit_transaction_ || qid.isNone) = true ∧
    qid_out_of_range w.self.query_executions_.length
      (qid_value w.self.query_executions_.length qid) = false ∧
    n.any (fun limit => decide (limit < 0)) = false ∧
    live_query w.self (slot_index w qid) = some pq := by
  refine ⟨?_, ?_, ?_, ?_⟩
  · rcases h.qid_allowed with h1 | h1 <;> simp [h1]
  · have h1 := h.not_negative
    have h2 := h.in_range
    simp only [qid_out_of_range, Bool.or_eq_false_iff, decide_eq_false_iff_not, not_lt, not_le]
    exact ⟨h1, h2⟩
  · cases n with
    | none => rfl
    | some k =>
      have := h.limit k rfl
      simp only [Option.any_some, decide_eq_false_iff_not, not_lt]
      exact this
  · rw [← h.index]
    exact h.live

/-- Once the checks of `Pull` are passed for slot `j`, `Pull` is its `try` block followed by
the `catch` clauses or the return. -/
theorem Pull_of_addresses {T : Types} (env : Collaborators T) {w : World T}
    {n qid : Option Int} {j : Nat} {pq : PreparedQuery T} (h : Addresses w n qid j pq) :
    Interpreter.Pull env w n qid =
      match Pull_try env w n j pq with
      | .done maybe_summary w1 => Pull_return maybe_summary w1
      | .raised e w1 => Pull_catch env j e w1
      | .fatal a t => .fatal a t
      | .terminated t => .terminated t
      | .undefined t => .undefined t := by
  obtain ⟨h1, h2, h3, h4⟩ := h.checks
  rw [Pull_of_live env w n qid pq h1 h2 h3 h4, ← h.index]

/-- A call of `Pull` that returns got as far as the handler of the slot it resolved. -/
theorem Pull_ret_addresses {T : Types} {env : Collaborators T} {w : World T}
    {n qid : Option Int} {m : StdMap} {w' : World T}
    (h : Interpreter.Pull env w n qid = .ret m w') :
    ∃ pq maybe_summary w1, Addresses w n qid (slot_index w qid) pq ∧
      Pull_try env w n (slot_index w qid) pq = .done maybe_summary w1 ∧
      Pull_return maybe_summary w1 = .ret m w' := by
  obtain ⟨pq, ms, w1, h1, h2, h3, h4, h5, h6⟩ := Pull_ret_inv h
  refine ⟨pq, ms, w1, ⟨?_, ?_, ?_, rfl, ?_, h4⟩, h5, h6⟩
  · revert h1
    cases w.self.in_explicit_transaction_ <;> cases qid <;> simp
  · simp only [qid_out_of_range, Bool.or_eq_false_iff, decide_eq_false_iff_not, not_lt, not_le] at h2
    exact h2.1
  · simp only [qid_out_of_range, Bool.or_eq_false_iff, decide_eq_false_iff_not, not_lt, not_le] at h2
    exact h2.2
  · intro k hk
    subst hk
    simpa using h3

/-- A supplied qid `j` that is in range and live, in an explicit transaction, with a row
limit that is not negative, addresses slot `j`. -/
theorem addresses_of_qid {T : Types} {w : World T} {n : Option Int} {j : Nat}
    {pq : PreparedQuery T} (hexp : w.self.in_explicit_transaction_ = true)
    (hj : j < w.self.query_executions_.length) (hn : ∀ k, n = some k → 0 ≤ k)
    (hlive : live_query w.self j = some pq) : Addresses w n (some (j : Int)) j pq :=
  ⟨Or.inl hexp, by simp [qid_value], by simpa [qid_value] using hj, by simp [slot_index, qid_value],
    hn, hlive⟩

theorem Pull_try_more {T : Types} {env : Collaborators T} {w : World T} {n : Option Int}
    {pq : PreparedQuery T} {s1 : Interpreter T} {st1 : T.Stream} (j : Nat)
    (hrun : env.query_handler pq.query_handler n (w.self, w.result_stream) = .ret none (s1, st1)) :
    Pull_try env w n j pq =
      .done none { self := s1, result_stream := st1, trace := w.trace ++ [Event.query_handler j n] } := by
  simp only [Pull_try, hrun]

theorem Pull_try_finished {T : Types} {env : Collaborators T} {w : World T} {n : Option Int}
    {pq : PreparedQuery T} {res : QueryHandlerResult} {s1 : Interpreter T} {st1 : T.Stream}
    {j : Nat} {e1 : QueryExecution T}
    (hrun : env.query_handler pq.query_handler n (w.self, w.result_stream) =
      .ret (some res) (s1, st1))
    (hslot : s1.query_executions_[j]? = some (some e1)) :
    Pull_try env w n j pq =
      Pull_finished env
        { self := s1, result_stream := st1, trace := w.trace ++ [Event.query_handler j n] }
        j res e1 := by
  simp only [Pull_try, hrun, hslot]

theorem Pull_finished_explicit {T : Types} (env : Collaborators T) (w : World T) (j : Nat)
    (res : QueryHandlerResult) (e : QueryExecution T)
    (hexp : w.self.in_explicit_transaction_ = true) :
    Pull_finished env w j res e =
      .done (some (fold_notifications env e.summary e.notifications))
        { w with self := { w.self with
            query_executions_ := w.self.query_executions_.set j none } } := by
  simp [Pull_finished, summary_moved, hexp, List.set_set]

/-- In an explicit transaction a `Pull` whose handler finishes returns, and leaves the
interpreter as the handler left it but for the addressed slot, which is reset. -/
theorem Pull_explicit_finished {T : Types} (env : Collaborators T) {w : World T}
    {n qid : Option Int} {j : Nat} {pq : PreparedQuery T} {res : QueryHandlerResult}
    {s1 : Interpreter T} {st1 : T.Stream} {e1 : QueryExecution T}
    (haddr : Addresses w n qid j pq)
    (hrun : env.query_handler pq.query_handler n (w.self, w.result_stream) =
      .ret (some res) (s1, st1))
    (hslot : s1.query_executions_[j]? = some (some e1))
    (hexp1 : s1.in_explicit_transaction_ = true) :
    Interpreter.Pull env w n qid =
      .ret (StdMap.insert_or_assign "has_more" (TypedValue.bool false)
          (fold_notifications env e1.summary e1.notifications))
        { self := { s1 with query_executions_ := s1.query_executions_.set j none },
          result_stream := st1,
          trace := w.trace ++ [Event.query_handler j n, Event.FirstSuccessfulQuery,
            Event.IncrementCounter Counter.SuccessfulQuery] } := by
  rw [Pull_of_addresses env haddr, Pull_try_finished hrun hslot,
    Pull_finished_explicit env _ j res e1 hexp1]
  simp [Pull_return]

theorem Pull_try_done {T : Types} {env : Collaborators T} {w : World T} {n : Option Int}
    {j : Nat} {pq : PreparedQuery T} {ms : Option StdMap} {w1 : World T}
    (h : Pull_try env w n j pq = .done ms w1) :
    ∃ r s1 st1, env.query_handler pq.query_handler n (w.self, w.result_stream) = .ret r (s1, st1) ∧
      match r with
      | none => ms = none ∧
          w1 = { self := s1, result_stream := st1, trace := w.trace ++ [Event.query_handler j n] }
      | some res => ∃ e1, s1.query_executions_[j]? = some (some e1) ∧
          Pull_finished env
            { self := s1, result_stream := st1, trace := w.trace ++ [Event.query_handler j n] }
            j res e1 = .done ms w1 := by
  unfold Pull_try at h
  simp only at h
  split at h
  · simp at h
  · simp at h
  · rename_i s1 st1 hrun
    refine ⟨none, s1, st1, hrun, ?_⟩
    simp only [TryExit.done.injEq] at h
    exact ⟨h.1.symm, h.2.symm⟩
  · rename_i res s1 st1 hrun
    refine ⟨some res, s1, st1, hrun, ?_⟩
    split at h
    · rename_i e1 hslot
      exact ⟨e1, hslot, h⟩
    · simp at h

theorem Pull_finished_done {T : Types} {env : Collaborators T} {w : World T} {j : Nat}
    {res : QueryHandlerResult} {e : QueryExecution T} {ms : Option StdMap} {w1 : World T}
    (h : Pull_finished env w j res e = .done ms w1) :
    ms = some (fold_notifications env e.summary e.notifications) ∧
    (w.self.in_explicit_transaction_ = false →
      ∃ s2, w1.self = s2.ResetInterpreter ∧ w1.result_stream = w.result_stream ∧
        match res with
        | .COMMIT => env.Commit (summary_moved w.self j e) = .ret () s2 ∧
            w1.trace = w.trace ++ [Event.Commit]
        | .ABORT => env.Abort (summary_moved w.self j e) = .ret () s2 ∧
            w1.trace = w.trace ++ [Event.Abort]
        | .NOTHING => s2 = summary_moved w.self j e ∧ w1.trace = w.trace ∧
            w.self.current_db_.db_transactional_accessor_ = none) := by
  unfold Pull_finished at h
  simp only at h
  split at h
  · rename_i himp
    have himp' : w.self.in_explicit_transaction_ = false := by
      simpa [summary_moved] using himp
    cases res with
    | COMMIT =>
      simp only [try_call] at h
      split at h
      · rename_i s2 hc
        simp only [TryExit.done.injEq] at h
        refine ⟨h.1.symm, fun _ => ⟨s2, ?_, ?_, hc, ?_⟩⟩ <;> simp [← h.2]
      · simp at h
      · simp at h
    | ABORT =>
      simp only [try_call] at h
      split at h
      · rename_i s2 hc
        simp only [TryExit.done.injEq] at h
        refine ⟨h.1.symm, fun _ => ⟨s2, ?_, ?_, hc, ?_⟩⟩ <;> simp [← h.2]
      · simp at h
      · simp at h
    | NOTHING =>
      simp only at h
      split at h
      · simp at h
      · rename_i hacc
        simp only [TryExit.done.injEq] at h
        refine ⟨h.1.symm, fun _ => ⟨summary_moved w.self j e, ?_, ?_, rfl, ?_, ?_⟩⟩
        · simp [← h.2]
        · simp [← h.2]
        · simp [← h.2]
        · simpa [summary_moved] using hacc
  · rename_i hexp
    simp only [TryExit.done.injEq] at h
    refine ⟨h.1.symm, fun himp => ?_⟩
    simp [summary_moved, himp] at hexp

/-- What a returning call of `Pull` went through: the handler of the resolved slot returned;
without an outcome tag the flag map is returned and nothing else is done, with one the map
is the folded summary with `has_more` set to `false`. -/
theorem Pull_ret_cases {T : Types} {env : Collaborators T} {w : World T} {n qid : Option Int}
    {m : StdMap} {w' : World T} (h : Interpreter.Pull env w n qid = .ret m w') :
    ∃ pq r s1 st1, Addresses w n qid (slot_index w qid) pq ∧
      env.query_handler pq.query_handler n (w.self, w.result_stream) = .ret r (s1, st1) ∧
      match r with
      | none => m = [("has_more", TypedValue.bool true)] ∧
          w' = { self := s1, result_stream := st1,
                 trace := w.trace ++ [Event.query_handler (slot_index w qid) n] }
      | some res => ∃ e1 w1, s1.query_executions_[slot_index w qid]? = some (some e1) ∧
          m = StdMap.insert_or_assign "has_more" (TypedValue.bool false)
            (fold_notifications env e1.summary e1.notifications) ∧
          Pull_finished env
            { self := s1, result_stream := st1,
              trace := w.trace ++ [Event.query_handler (slot_index w qid) n] }
            (slot_index w qid) res e1 =
            .done (some (fold_notifications env e1.summary e1.notifications)) w1 ∧
          w' = { w1 with trace := w1.trace ++
            [Event.FirstSuccessfulQuery, Event.IncrementCounter Counter.SuccessfulQuery] } := by
  obtain ⟨pq, ms, w1, haddr, htry, hreturn⟩ := Pull_ret_addresses h
  obtain ⟨r, s1, st1, hrun, hr⟩ := Pull_try_done htry
  refine ⟨pq, r, s1, st1, haddr, hrun, ?_⟩
  cases r with
  | none =>
    obtain ⟨h1, h2⟩ := hr
    subst h1 h2
    simp only [Pull_return, Exit.ret.injEq] at hreturn
    exact ⟨hreturn.1.symm, hreturn.2.symm⟩
  | some res =>
    obtain ⟨e1, hslot, hfin⟩ := hr
    have hms := (Pull_finished_done hfin).1
    subst hms
    simp only [Pull_return, Exit.ret.injEq] at hreturn
    exact ⟨e1, w1, hslot, hreturn.1.symm, hfin, hreturn.2.symm⟩

/-- The `catch` clauses call neither `Commit` nor `Abort`. -/
theorem Pull_catch_trace {T : Types} (env : Collaborators T) (j : Nat) (e : Exception)
    (w : World T) :
    ∃ calls, (Pull_catch env j e w).trace = w.trace ++ calls ∧
      calls.count Event.Commit = 0 ∧ calls.count Event.Abort = 0 := by
  cases e with
  | ExplicitTransactionUsageException what =>
    simp only [Pull_catch, catch_call]
    cases env.LogQueryMessage what w.self with
    | ret v s =>
      refine ⟨[Event.LogQueryMessage what], ?_, by simp, by simp⟩
      simp only
      split <;> rfl
    | raise e2 s => exact ⟨[Event.LogQueryMessage what], rfl, by simp, by simp⟩
    | terminate => exact ⟨[Event.LogQueryMessage what], rfl, by simp, by simp⟩
  | BasicException what =>
    simp only [Pull_catch, catch_call]
    cases env.LogQueryMessage what w.self with
    | ret v s =>
      simp only
      cases env.AbortCommand j s with
      | ret v2 s2 =>
        exact ⟨[Event.LogQueryMessage what, Event.FirstFailedQuery,
          Event.IncrementCounter Counter.FailedQuery, Event.IncrementCounter Counter.FailedPull,
          Event.AbortCommand j], by simp [Exit.trace], by simp, by simp⟩
      | raise e2 s2 =>
        exact ⟨[Event.LogQueryMessage what, Event.FirstFailedQuery,
          Event.IncrementCounter Counter.FailedQuery, Event.IncrementCounter Counter.FailedPull,
          Event.AbortCommand j], by simp [Exit.trace], by simp, by simp⟩
      | terminate =>
        exact ⟨[Event.LogQueryMessage what, Event.FirstFailedQuery,
          Event.IncrementCounter Counter.FailedQuery, Event.IncrementCounter Counter.FailedPull,
          Event.AbortCommand j], by simp [Exit.trace], by simp, by simp⟩
    | raise e2 s => exact ⟨[Event.LogQueryMessage what], rfl, by simp, by simp⟩
    | terminate => exact ⟨[Event.LogQueryMessage what], rfl, by simp, by simp⟩
  | Unrelated what => exact ⟨[], by simp [Pull_catch, Exit.trace], rfl, rfl⟩

/-- A `Pull` that got to the handler of slot `j`, whose handler finished with `res` and
left the slot in place: the `try` block goes on with `Pull_finished`. -/
theorem Pull_of_finished {T : Types} (env : Collaborators T) {w : World T}
    {n qid : Option Int} {j : Nat} {pq : PreparedQuery T} {res : QueryHandlerResult}
    {s1 : Interpreter T} {st1 : T.Stream} {e1 : QueryExecution T}
    (haddr : Addresses w n qid j pq)
    (hrun : env.query_handler pq.query_handler n (w.self, w.result_stream) =
      .ret (some res) (s1, st1))
    (hslot : s1.query_executions_[j]? = some (some e1)) :
    Interpreter.Pull env w n qid =
      match Pull_finished env
          { self := s1, result_stream := st1, trace := w.trace ++ [Event.query_handler j n] }
          j res e1 with
      | .done maybe_summary w1 => Pull_return maybe_summary w1
      | .raised e w1 => Pull_catch env j e w1
      | .fatal a t => .fatal a t
      | .terminated t => .terminated t
      | .undefined t => .undefined t := by
  rw [Pull_of_addresses env haddr, Pull_try_finished hrun hslot]

/-- Outside an explicit transaction, after a call to `Commit` or `Abort` (the event `ev`,
the member function `f`) `Pull` calls neither of the two again. -/
theorem Pull_after_call_trace {T : Types} (env : Collaborators T) (j : Nat) (ev : Event)
    (f : Interpreter T → Call (Interpreter T) Unit) (w : World T) (summary : StdMap) :
    ∃ calls,
      (match try_call ev f w
          (fun w2 => .done (some summary) { w2 with self := w2.self.ResetInterpreter }) with
        | .done maybe_summary w1 => Pull_return maybe_summary w1
        | .raised e w1 => Pull_catch env j e w1
        | .fatal a t => Exit.fatal a t
        | .terminated t => Exit.terminated t
        | .undefined t => Exit.undefined t).trace = w.trace ++ ev :: calls ∧
      calls.count Event.Commit = 0 ∧ calls.count Event.Abort = 0 := by
  unfold try_call
  cases f w.self with
  | ret v s =>
    exact ⟨[Event.FirstSuccessfulQuery, Event.IncrementCounter Counter.SuccessfulQuery],
      by simp [Pull_return, Exit.trace], by decide, by decide⟩
  | raise e s =>
    obtain ⟨calls, h1, h2, h3⟩ := Pull_catch_trace env j e
      { w with self := s, trace := w.trace ++ [ev] }
    exact ⟨calls, by simp [h1], h2, h3⟩
  | terminate => exact ⟨[], by simp [Exit.trace], rfl, rfl⟩

theorem ResetInterpreter_cleared {T : Types} (s : Interpreter T) :
    s.ResetInterpreter.query_executions_ = [] ∧ s.ResetInterpreter.system_transaction_ = none ∧
    s.ResetInterpreter.transaction_queries_ = [] := by
  unfold Interpreter.ResetInterpreter
  simp only
  split
  · split <;> exact ⟨rfl, rfl, rfl⟩
  · exact ⟨rfl, rfl, rfl⟩

theorem ResetInterpreter_db_acc {T : Types} (s : Interpreter T) :
    s.ResetInterpreter.current_db_.db_acc_ =
      match s.current_db_.db_acc_ with
      | some db => if db.is_deleting then none else some db
      | none => none := by
  unfold Interpreter.ResetInterpreter
  simp only
  cases h : s.current_db_.db_acc_ with
  | none => simp [h]
  | some db =>
    simp only
    cases hd : db.is_deleting <;> simp [h]

/-- With an empty slot table and no qid, `qid_value` is `-1`. -/
theorem qid_value_empty : qid_value 0 none = -1 := by
  simp [qid_value, toInt32]

/-! ## The claims -/

/-- Counterexample to C1: a session in an explicit transaction with two live slots; the
handler of slot 0 ends the transaction and finishes with NOTHING.  `Pull` reads the flag
after the handler (line 537), finds the session outside an explicit transaction and calls
`ResetInterpreter` (line 557): the table is empty afterwards, so its length has changed and
slot 1 is gone. -/
theorem Pull_explicit_handler_leaves_transaction :
    (exSession true [some (exSlot (.leave .NOTHING)), some (exSlot .more)]).self.in_explicit_transaction_
      = true ∧
    0 < (exSession true
      [some (exSlot (.leave .NOTHING)), some (exSlot .more)]).self.query_executions_.length ∧
    live_query (exSession true [some (exSlot (.leave .NOTHING)), some (exSlot .more)]).self 0 =
      some (exQuery (.leave .NOTHING)) ∧
    Interpreter.Pull exEnv (exSession true [some (exSlot (.leave .NOTHING)), some (exSlot .more)])
      none (some 0) = .ret exReturned exAfterLeave ∧
    exAfterLeave.self.query_executions_ = [] ∧
    exAfterLeave.self.query_executions_.length ≠
      (exSession true
        [some (exSlot (.leave .NOTHING)), some (exSlot .more)]).self.query_executions_.length ∧
    exAfterLeave.self.query_executions_[1]? ≠
      (exSession true
        [some (exSlot (.leave .NOTHING)), some (exSlot .more)]).self.query_executions_[1]? := by
  refine ⟨rfl, by decide, rfl, by rfl, rfl, by decide, ?_⟩
  intro h
  have h2 : (none : Option (Option (QueryExecution ExT))) = some (some (exSlot .more)) := h
  exact Option.noConfusion h2

/-- C1, amended. In an explicit transaction, a `Pull` on an in-range qid `j` whose slot is
live and whose handler reaches a terminal outcome and leaves the session in the explicit
transaction returns with a slot table of the same length in which every slot `i ≠ j` is
exactly as it was, so that a later `Pull` with qid `i` resolves to the same index and finds
the same slot with the same prepared query.  The handler is code outside `Pull`: it is
taken to leave the length of the table and the slots other than its own as it found them. -/
theorem Pull_explicit_keeps_other_slots {T : Types} (env : Collaborators T) (w : World T)
    (n : Option Int) (j : Nat) (pq : PreparedQuery T) (res : QueryHandlerResult)
    (s1 : Interpreter T) (st1 : T.Stream)
    (hexp : w.self.in_explicit_transaction_ = true)
    (hj : j < w.self.query_executions_.length)
    (hlive : live_query w.self j = some pq)
    (hn : ∀ k, n = some k → 0 ≤ k)
    (hrun : env.query_handler pq.query_handler n (w.self, w.result_stream) =
      .ret (some res) (s1, st1))
    (hexp1 : s1.in_explicit_transaction_ = true)
    (hlen : s1.query_executions_.length = w.self.query_executions_.length)
    (hnull : s1.query_executions_[j]? ≠ some none)
    (hothers : ∀ i, i ≠ j → s1.query_executions_[i]? = w.self.query_executions_[i]?) :
    ∃ m w', Interpreter.Pull env w n (some (j : Int)) = .ret m w' ∧
      w'.self.query_executions_.length = w.self.query_executions_.length ∧
      w'.self.query_executions_[j]? = some none ∧
      (∀ i, i ≠ j → w'.self.query_executions_[i]? = w.self.query_executions_[i]?) ∧
      (∀ i, i ≠ j → slot_index w' (some (i : Int)) = slot_index w (some (i : Int)) ∧
        live_query w'.self i = live_query w.self i) := by
  have haddr := addresses_of_qid hexp hj hn hlive
  obtain ⟨e1, hslot⟩ : ∃ e1, s1.query_executions_[j]? = some (some e1) := by
    have hj1 : j < s1.query_executions_.length := hlen ▸ hj
    rw [List.getElem?_eq_getElem hj1] at hnull ⊢
    cases h : s1.query_executions_[j] with
    | none => rw [h] at hnull; exact absurd rfl hnull
    | some e => exact ⟨e, rfl⟩
  refine ⟨_, _, Pull_explicit_finished env haddr hrun hslot hexp1, ?_, ?_, ?_, ?_⟩
  · simp [hlen]
  · simp [List.getElem?_set_self, hlen, hj]
  · intro i hi
    simp only [List.getElem?_set_ne (Ne.symm hi)]
    exact hothers i hi
  · intro i hi
    refine ⟨by simp [slot_index, qid_value], ?_⟩
    have h1 := hothers i hi
    simp only [live_query, List.getD_eq_getElem?_getD, List.getElem?_set_ne (Ne.symm hi), h1]

/-- Witness of C1, amended: a session with two live slots; the handler of slot 0 finishes with
COMMIT and touches nothing. -/
theorem Pull_explicit_keeps_other_slots_witness :
    ∃ m w', Interpreter.Pull exEnv
        (exSession true [some (exSlot (.finish .COMMIT)), some (exSlot .more)]) none
        (some ((0 : Nat) : Int)) = .ret m w' ∧
      w'.self.query_executions_.length =
        (exSession true [some (exSlot (.finish .COMMIT)), some (exSlot .more)]).self.query_executions_.length ∧
      w'.self.query_executions_[0]? = some none ∧
      (∀ i, i ≠ 0 → w'.self.query_executions_[i]? =
        (exSession true [some (exSlot (.finish .COMMIT)), some (exSlot .more)]).self.query_executions_[i]?) ∧
      (∀ i : Nat, i ≠ 0 → slot_index w' (some (i : Int)) =
          slot_index (exSession true [some (exSlot (.finish .COMMIT)), some (exSlot .more)])
            (some (i : Int)) ∧
        live_query w'.self i =
          live_query (exSession true [some (exSlot (.finish .COMMIT)), some (exSlot .more)]).self i) :=
  Pull_explicit_keeps_other_slots exEnv
    (exSession true [some (exSlot (.finish .COMMIT)), some (exSlot .more)]) none 0
    (exQuery (.finish .COMMIT)) .COMMIT
    (exSession true [some (exSlot (.finish .COMMIT)), some (exSlot .more)]).self []
    rfl (by decide) rfl (by simp) rfl rfl rfl (by simp [exSession]) (fun _ _ => rfl)

/-- Counterexample to C2: outside an explicit transaction, a supplied qid that is not less
than the number of slots trips the assertion of line 495; no exception is thrown. -/
theorem Pull_qid_out_of_range_outside_explicit :
    (exSession false [some (exBare (.finish .COMMIT))]).self.in_explicit_transaction_ = false ∧
    ((exSession false [some (exBare (.finish .COMMIT))]).self.query_executions_.length : Int) ≤ 1 ∧
    Interpreter.Pull exEnv (exSession false [some (exBare (.finish .COMMIT))]) none (some 1) =
      .fatal .qid_in_explicit_transaction [] ∧
    ∀ e w', Interpreter.Pull exEnv (exSession false [some (exBare (.finish .COMMIT))]) none
      (some 1) ≠ .throw e w' := by
  refine ⟨rfl, by simp [exSession], ?_, ?_⟩ <;> simp [Interpreter.Pull, exSession]

/-- C2, amended. In an explicit transaction, for every supplied qid that is negative or not
less than the number of slots, and whatever the row limit, `Pull` throws the
`InvalidArgumentsException` for `qid` and leaves the session as it was. -/
theorem Pull_qid_out_of_range_in_explicit {T : Types} (env : Collaborators T) (w : World T)
    (n : Option Int) (q : Int)
    (hexp : w.self.in_explicit_transaction_ = true)
    (hq : q < 0 ∨ (w.self.query_executions_.length : Int) ≤ q) :
    Interpreter.Pull env w n (some q) =
      .throw (.InvalidArgumentsException "qid" "Query with specified ID does not exist!") w := by
  have h : qid_out_of_range w.self.query_executions_.length q = true := by
    simp only [qid_out_of_range, Bool.or_eq_true, decide_eq_true_eq]
    exact hq
  simp [Interpreter.Pull, hexp, qid_value, h]

/-- Witness of C2, amended: qid 2 with two slots, in an explicit transaction. -/
theorem Pull_qid_out_of_range_in_explicit_witness :
    Interpreter.Pull exEnv (exSession true [some (exSlot .more), none]) (some 10) (some 2) =
      .throw (.InvalidArgumentsException "qid" "Query with specified ID does not exist!")
        (exSession true [some (exSlot .more), none]) :=
  Pull_qid_out_of_range_in_explicit exEnv (exSession true [some (exSlot .more), none])
    (some 10) 2 rfl (Or.inr (by simp [exSession]))

/-- Counterexample to C3: outside an explicit transaction, a negative row limit together
with a supplied qid trips the assertion of line 495; no exception is thrown. -/
theorem Pull_negative_limit_outside_explicit :
    Interpreter.Pull exEnv (exSession false [some (exBare (.finish .COMMIT))]) (some (-1))
      (some 0) = .fatal .qid_in_explicit_transaction [] ∧
    ∀ e w', Interpreter.Pull exEnv (exSession false [some (exBare (.finish .COMMIT))])
      (some (-1)) (some 0) ≠ .throw e w' := by
  constructor <;> simp [Interpreter.Pull, exSession]

/-- C3, amended. For every session state and qid argument that pass the assertion of line
495 (the session is in an explicit transaction, or no qid is supplied) and every row limit
`k < 0`, `Pull` throws an `InvalidArgumentsException`, for `qid` when the qid is out of
range and for `n` otherwise, and the session is as it was: the exit carries the state and
the trace of the entry, so no slot is changed or retired and no handler, `Commit`, `Abort`
or `AbortCommand` is called. -/
theorem Pull_negative_limit {T : Types} (env : Collaborators T) (w : World T)
    (qid : Option Int) (k : Int) (hk : k < 0)
    (hassert : w.self.in_explicit_transaction_ = true ∨ qid = none) :
    (qid_out_of_range w.self.query_executions_.length
        (qid_value w.self.query_executions_.length qid) = true ∧
      Interpreter.Pull env w (some k) qid =
        .throw (.InvalidArgumentsException "qid" "Query with specified ID does not exist!") w) ∨
    (qid_out_of_range w.self.query_executions_.length
        (qid_value w.self.query_executions_.length qid) = false ∧
      Interpreter.Pull env w (some k) qid =
        .throw (.InvalidArgumentsException "n" "Cannot fetch negative number of results!") w) := by
  have h1 : (w.self.in_explicit_transaction_ || qid.isNone) = true := by
    rcases hassert with h | h <;> simp [h]
  cases h2 : qid_out_of_range w.self.query_executions_.length
      (qid_value w.self.query_executions_.length qid) with
  | true => exact Or.inl ⟨rfl, by simp [Interpreter.Pull, h1, h2]⟩
  | false => exact Or.inr ⟨rfl, by simp [Interpreter.Pull, h1, h2, hk]⟩

/-- Witness of C3, amended: row limit -1 on the live last slot, no qid, outside an explicit
transaction. -/
theorem Pull_negative_limit_witness :
    (qid_out_of_range (exSession false [some (exSlot .more)]).self.query_executions_.length
        (qid_value (exSession false [some (exSlot .more)]).self.query_executions_.length none) = true ∧
      Interpreter.Pull exEnv (exSession false [some (exSlot .more)]) (some (-1)) none =
        .throw (.InvalidArgumentsException "qid" "Query with specified ID does not exist!")
          (exSession false [some (exSlot .more)])) ∨
    (qid_out_of_range (exSession false [some (exSlot .more)]).self.query_executions_.length
        (qid_value (exSession false [some (exSlot .more)]).self.query_executions_.length none) = false ∧
      Interpreter.Pull exEnv (exSession false [some (exSlot .more)]) (some (-1)) none =
        .throw (.InvalidArgumentsException "n" "Cannot fetch negative number of results!")
          (exSession false [some (exSlot .more)])) :=
  Pull_negative_limit exEnv (exSession false [some (exSlot .more)]) none (-1) (by decide)
    (Or.inr rfl)

/-- C4. Whenever `Pull` returns normally, the handler of the slot it resolved has returned,
and the map `Pull` returns holds under `has_more` the boolean that tells whether the handler
returned no outcome tag: `false` exactly when it returned one (COMMIT, ABORT or NOTHING),
`true` exactly when it returned none.  The summary of the slot is arbitrary here, so this
holds also when it already had a `has_more` entry. -/
theorem Pull_has_more_flag {T : Types} (env : Collaborators T) (w : World T)
    (n qid : Option Int) (m : StdMap) (w' : World T)
    (h : Interpreter.Pull env w n qid = .ret m w') :
    ∃ pq r s1 st1, live_query w.self (slot_index w qid) = some pq ∧
      env.query_handler pq.query_handler n (w.self, w.result_stream) = .ret r (s1, st1) ∧
      (∃ b, StdMap.find "has_more" m = some (TypedValue.bool b)) ∧
      (StdMap.find "has_more" m = some (TypedValue.bool false) ↔ ∃ res, r = some res) ∧
      (StdMap.find "has_more" m = some (TypedValue.bool true) ↔ r = none) := by
  obtain ⟨pq, r, s1, st1, haddr, hrun, hr⟩ := Pull_ret_cases h
  refine ⟨pq, r, s1, st1, haddr.index ▸ haddr.live, hrun, ?_⟩
  cases r with
  | none =>
    obtain ⟨hm, -⟩ := hr
    subst hm
    simp [StdMap.find]
  | some res =>
    obtain ⟨e1, w1, -, hm, -, -⟩ := hr
    subst hm
    simp [StdMap.find_insert_or_assign_self]

/-- Witness of C4: outside an explicit transaction, the handler of the only slot finishes
with COMMIT; the summary of the slot already has the entry `has_more ↦ 7`. -/
theorem Pull_has_more_flag_witness :
    ∃ pq r s1 st1,
      live_query (exSession false [some (exSlot (.finish .COMMIT))]).self
        (slot_index (exSession false [some (exSlot (.finish .COMMIT))]) none) = some pq ∧
      exEnv.query_handler pq.query_handler none
        ((exSession false [some (exSlot (.finish .COMMIT))]).self,
          (exSession false [some (exSlot (.finish .COMMIT))]).result_stream) = .ret r (s1, st1) ∧
      (∃ b, StdMap.find "has_more" exReturned = some (TypedValue.bool b)) ∧
      (StdMap.find "has_more" exReturned = some (TypedValue.bool false) ↔ ∃ res, r = some res) ∧
      (StdMap.find "has_more" exReturned = some (TypedValue.bool true) ↔ r = none) :=
  Pull_has_more_flag exEnv (exSession false [some (exSlot (.finish .COMMIT))]) none none
    exReturned
    { self := { transaction_status_ := () }, result_stream := [],
      trace := [Event.query_handler 0 none, Event.Commit, Event.FirstSuccessfulQuery,
        Event.IncrementCounter Counter.SuccessfulQuery] }
    (by rfl)

/-- C5. When a call of `Pull` gets to the handler of slot `j` and the handler returns no
outcome tag, `Pull` returns exactly the one-entry map `has_more ↦ true`, and the
interpreter and the stream are as the handler left them: `Pull` itself changes no slot and
calls nothing else.  So when the handler left the slot table and the transaction flag as it
found them, slot `j` is still present and live with the same prepared query, and a further
`Pull` with the same qid and a row limit that is not negative passes the liveness check and
gets to the handler again. -/
theorem Pull_has_more_true {T : Types} (env : Collaborators T) (w : World T)
    (n qid : Option Int) (j : Nat) (pq : PreparedQuery T) (s1 : Interpreter T) (st1 : T.Stream)
    (haddr : Addresses w n qid j pq)
    (hrun : env.query_handler pq.query_handler n (w.self, w.result_stream) = .ret none (s1, st1)) :
    Interpreter.Pull env w n qid =
      .ret [("has_more", TypedValue.bool true)]
        { self := s1, result_stream := st1, trace := w.trace ++ [Event.query_handler j n] } ∧
    (s1.query_executions_ = w.self.query_executions_ →
      s1.in_explicit_transaction_ = w.self.in_explicit_transaction_ →
      live_query s1 j = some pq ∧
      ∀ n2 : Option Int, (∀ k, n2 = some k → 0 ≤ k) →
        Addresses { self := s1, result_stream := st1,
                    trace := w.trace ++ [Event.query_handler j n] } n2 qid j pq) := by
  refine ⟨?_, fun hq hf => ?_⟩
  · rw [Pull_of_addresses env haddr, Pull_try_more j hrun]
    rfl
  · have hl : live_query s1 j = some pq := by
      have := haddr.live
      simpa [live_query, hq] using this
    refine ⟨hl, fun n2 hn2 => ⟨?_, ?_, ?_, ?_, hn2, hl⟩⟩
    · simpa [hf] using haddr.qid_allowed
    · simpa [hq] using haddr.not_negative
    · simpa [hq] using haddr.in_range
    · simpa [slot_index, hq] using haddr.index

/-- Witness of C5: in an explicit transaction, qid 1 addresses a slot whose handler asks for
another `Pull` and changes nothing; the slot stays live and the next `Pull` gets to the
handler again. -/
theorem Pull_has_more_true_witness :
    Interpreter.Pull exEnv (exSession true [none, some (exSlot .more)]) (some 2) (some 1) =
      .ret [("has_more", TypedValue.bool true)]
        { self := (exSession true [none, some (exSlot .more)]).self, result_stream := [],
          trace := (exSession true [none, some (exSlot .more)]).trace ++
            [Event.query_handler 1 (some 2)] } ∧
    live_query (exSession true [none, some (exSlot .more)]).self 1 = some (exQuery .more) ∧
    ∀ n2 : Option Int, (∀ k, n2 = some k → 0 ≤ k) →
      Addresses { self := (exSession true [none, some (exSlot .more)]).self, result_stream := [],
                  trace := (exSession true [none, some (exSlot .more)]).trace ++
                    [Event.query_handler 1 (some 2)] } n2 (some 1) 1 (exQuery .more) :=
  have h := Pull_has_more_true exEnv (exSession true [none, some (exSlot .more)]) (some 2)
    (some 1) 1 (exQuery .more) (exSession true [none, some (exSlot .more)]).self []
    ⟨Or.inl rfl, by decide, by decide, rfl, (fun k hk => by cases hk; decide), rfl⟩ rfl
  ⟨h.1, h.2 rfl rfl⟩

/-- C6. When `Pull` returns after the handler of the slot it resolved returned an outcome
tag, the returned map is the summary `e1.summary` of that slot as the handler left it, with
`has_more` set to `false` and, when the slot's notification list is not empty, with
`notifications` set to the list of the notifications converted to maps, one per
notification and in the same order; when the list is empty, the `notifications` entry is
as in the summary (absent if it was absent).  Every other key is as in the summary. -/
theorem Pull_terminal_summary {T : Types} (env : Collaborators T) (w : World T)
    (n qid : Option Int) (m : StdMap) (w' : World T) (pq : PreparedQuery T)
    (res : QueryHandlerResult) (s1 : Interpreter T) (st1 : T.Stream)
    (hret : Interpreter.Pull env w n qid = .ret m w')
    (hlive : live_query w.self (slot_index w qid) = some pq)
    (hrun : env.query_handler pq.query_handler n (w.self, w.result_stream) =
      .ret (some res) (s1, st1)) :
    ∃ e1, s1.query_executions_[slot_index w qid]? = some (some e1) ∧
      (e1.notifications = [] →
        m = StdMap.insert_or_assign "has_more" (TypedValue.bool false) e1.summary ∧
        StdMap.find "notifications" m = StdMap.find "notifications" e1.summary) ∧
      (e1.notifications ≠ [] →
        m = StdMap.insert_or_assign "has_more" (TypedValue.bool false)
          (StdMap.insert_or_assign "notifications"
            (TypedValue.list (e1.notifications.map fun notification =>
              TypedValue.map (env.ConvertToMap notification))) e1.summary) ∧
        ∃ converted : List TypedValue,
          StdMap.find "notifications" m = some (TypedValue.list converted) ∧
          converted.length = e1.notifications.length ∧
          ∀ (i : Nat) (notification : T.Notification), e1.notifications[i]? = some notification →
            converted[i]? = some (TypedValue.map (env.ConvertToMap notification))) ∧
      StdMap.find "has_more" m = some (TypedValue.bool false) ∧
      (∀ k, k ≠ "has_more" → k ≠ "notifications" → StdMap.find k m = StdMap.find k e1.summary) := by
  obtain ⟨pq', r, s1', st1', haddr, hrun', hr⟩ := Pull_ret_cases hret
  have hpq : pq' = pq := by
    have := haddr.live
    rw [hlive] at this
    exact (Option.some.inj this).symm
  subst hpq
  rw [hrun] at hrun'
  simp only [Call.ret.injEq, Option.some.injEq, Prod.mk.injEq] at hrun'
  obtain ⟨hr1, hs1, hst1⟩ := hrun'
  subst hr1 hs1 hst1
  obtain ⟨e1, w1, hslot, hm, -, -⟩ := hr
  have hne : ("notifications" : String) ≠ "has_more" := by decide
  refine ⟨e1, hslot, ?_, ?_, ?_, ?_⟩
  · intro hempty
    have hm' : m = StdMap.insert_or_assign "has_more" (TypedValue.bool false) e1.summary := by
      simpa [fold_notifications, hempty] using hm
    exact ⟨hm', by rw [hm', StdMap.find_insert_or_assign_of_ne hne]⟩
  · intro hnonempty
    have hm' : m = StdMap.insert_or_assign "has_more" (TypedValue.bool false)
        (StdMap.insert_or_assign "notifications"
          (TypedValue.list (e1.notifications.map fun notification =>
            TypedValue.map (env.ConvertToMap notification))) e1.summary) := by
      simpa [fold_notifications, hnonempty] using hm
    refine ⟨hm', e1.notifications.map fun notification =>
      TypedValue.map (env.ConvertToMap notification), ?_, List.length_map _ _, ?_⟩
    · rw [hm', StdMap.find_insert_or_assign_of_ne hne, StdMap.find_insert_or_assign_self]
    · intro i notification hi
      simp [List.getElem?_map, hi]
  · rw [hm, StdMap.find_insert_or_assign_self]
  · intro k hk1 hk2
    rw [hm, StdMap.find_insert_or_assign_of_ne hk1]
    unfold fold_notifications
    split
    · rfl
    · exact StdMap.find_insert_or_assign_of_ne hk2 _ _

/-- Witness of C6: in an explicit transaction, qid 1 addresses a slot with two
notifications whose handler finishes with NOTHING. -/
theorem Pull_terminal_summary_witness :
    ∃ e1, (exSession true [some (exSlot .more), some (exSlot (.finish .NOTHING))]).self.query_executions_[
        slot_index (exSession true [some (exSlot .more), some (exSlot (.finish .NOTHING))])
          (some 1)]? = some (some e1) ∧
      (e1.notifications = [] →
        exReturned = StdMap.insert_or_assign "has_more" (TypedValue.bool false) e1.summary ∧
        StdMap.find "notifications" exReturned = StdMap.find "notifications" e1.summary) ∧
      (e1.notifications ≠ [] →
        exReturned = StdMap.insert_or_assign "has_more" (TypedValue.bool false)
          (StdMap.insert_or_assign "notifications"
            (TypedValue.list (e1.notifications.map fun notification =>
              TypedValue.map (exEnv.ConvertToMap notification))) e1.summary) ∧
        ∃ converted : List TypedValue,
          StdMap.find "notifications" exReturned = some (TypedValue.list converted) ∧
          converted.length = e1.notifications.length ∧
          ∀ (i : Nat) (notification : ExT.Notification), e1.notifications[i]? = some notification →
            converted[i]? = some (TypedValue.map (exEnv.ConvertToMap notification))) ∧
      StdMap.find "has_more" exReturned = some (TypedValue.bool false) ∧
      (∀ k, k ≠ "has_more" → k ≠ "notifications" →
        StdMap.find k exReturned = StdMap.find k e1.summary) :=
  Pull_terminal_summary exEnv
    (exSession true [some (exSlot .more), some (exSlot (.finish .NOTHING))]) none (some 1)
    exReturned
    { self := { transaction_status_ := (), in_explicit_transaction_ := true,
                query_executions_ := [some (exSlot .more), none] },
      result_stream := [],
      trace := [Event.query_handler 1 none, Event.FirstSuccessfulQuery,
        Event.IncrementCounter Counter.SuccessfulQuery] }
    (exQuery (.finish .NOTHING)) .NOTHING
    (exSession true [some (exSlot .more), some (exSlot (.finish .NOTHING))]).self []
    (by rfl) (by rfl) (by rfl)

/-- C7. Take a `Pull` that gets to the handler of slot `j`, whose handler returns the
outcome tag `res` and leaves the session outside an explicit transaction.  Of the calls
`Pull` makes after the handler, whatever way it ends: for COMMIT exactly one is to `Commit`
and none to `Abort`; for ABORT exactly one is to `Abort` and none to `Commit`; for NOTHING
none is to either, and `Pull` ends in the assertion of line 549 when a storage-transaction
accessor is open on the current-database binding (and returns when none is). -/
theorem Pull_implicit_outcome_calls {T : Types} (env : Collaborators T) (w : World T)
    (n qid : Option Int) (j : Nat) (pq : PreparedQuery T) (res : QueryHandlerResult)
    (s1 : Interpreter T) (st1 : T.Stream) (e1 : QueryExecution T)
    (haddr : Addresses w n qid j pq)
    (hrun : env.query_handler pq.query_handler n (w.self, w.result_stream) =
      .ret (some res) (s1, st1))
    (hslot : s1.query_executions_[j]? = some (some e1))
    (himp : s1.in_explicit_transaction_ = false) :
    ∃ calls, (Interpreter.Pull env w n qid).trace = w.trace ++ Event.query_handler j n :: calls ∧
      (res = .COMMIT → calls.count Event.Commit = 1 ∧ calls.count Event.Abort = 0) ∧
      (res = .ABORT → calls.count Event.Abort = 1 ∧ calls.count Event.Commit = 0) ∧
      (res = .NOTHING → calls.count Event.Commit = 0 ∧ calls.count Event.Abort = 0 ∧
        (s1.current_db_.db_transactional_accessor_ ≠ none →
          Interpreter.Pull env w n qid =
            .fatal .no_transactional_accessor (w.trace ++ [Event.query_handler j n])) ∧
        (s1.current_db_.db_transactional_accessor_ = none →
          ∃ m w', Interpreter.Pull env w n qid = .ret m w')) := by
  rw [Pull_of_finished env haddr hrun hslot]
  cases res with
  | COMMIT =>
    obtain ⟨calls, h1, h2, h3⟩ := Pull_after_call_trace env j Event.Commit env.Commit
      { self := summary_moved s1 j e1, result_stream := st1,
        trace := w.trace ++ [Event.query_handler j n] }
      (fold_notifications env e1.summary e1.notifications)
    refine ⟨Event.Commit :: calls, ?_, ?_, by simp, by simp⟩
    · simp only [Pull_finished, summary_moved, himp] at h1 ⊢
      simpa using h1
    · intro _
      simp [h2, h3]
  | ABORT =>
    obtain ⟨calls, h1, h2, h3⟩ := Pull_after_call_trace env j Event.Abort env.Abort
      { self := summary_moved s1 j e1, result_stream := st1,
        trace := w.trace ++ [Event.query_handler j n] }
      (fold_notifications env e1.summary e1.notifications)
    refine ⟨Event.Abort :: calls, ?_, by simp, ?_, by simp⟩
    · simp only [Pull_finished, summary_moved, himp] at h1 ⊢
      simpa using h1
    · intro _
      simp [h2, h3]
  | NOTHING =>
    cases hacc : s1.current_db_.db_transactional_accessor_ with
    | none =>
      refine ⟨[Event.FirstSuccessfulQuery, Event.IncrementCounter Counter.SuccessfulQuery],
        ?_, by simp, by simp, fun _ => ⟨by decide, by decide, by simp, fun _ => ?_⟩⟩
      · simp [Pull_finished, summary_moved, himp, hacc, Pull_return, Exit.trace]
      · simp [Pull_finished, summary_moved, himp, hacc, Pull_return]
    | some acc =>
      refine ⟨[], ?_, by simp, by simp, fun _ => ⟨rfl, rfl, fun _ => ?_, by simp⟩⟩
      · simp [Pull_finished, summary_moved, himp, hacc, Exit.trace]
      · simp [Pull_finished, summary_moved, himp, hacc]

/-- Witness of C7: outside an explicit transaction, the handler of the only slot finishes
with COMMIT; `Commit` is called once and `Abort` is not. -/
theorem Pull_implicit_outcome_calls_witness :
    ∃ calls, (Interpreter.Pull exEnv (exSession false [some (exSlot (.finish .COMMIT))])
        none none).trace =
        (exSession false [some (exSlot (.finish .COMMIT))]).trace ++
          Event.query_handler 0 none :: calls ∧
      calls.count Event.Commit = 1 ∧ calls.count Event.Abort = 0 :=
  (Pull_implicit_outcome_calls exEnv (exSession false [some (exSlot (.finish .COMMIT))]) none none
    0 (exQuery (.finish .COMMIT)) .COMMIT (exSession false [some (exSlot (.finish .COMMIT))]).self
    [] (exSlot (.finish .COMMIT))
    ⟨Or.inr rfl, by decide, by decide, by decide, (fun k hk => by cases hk), rfl⟩ rfl rfl
    rfl).elim fun calls h => ⟨calls, h.1, h.2.1 rfl⟩

/-- C8. When `Pull` returns after the handler of the slot it resolved returned an outcome
tag and left the session outside an explicit transaction, the slot table is empty (all
slots are discarded), the system transaction is absent and the log of query texts is
empty: the interpreter is `ResetInterpreter` of the state `s2` that `Commit` or `Abort`
left (for NOTHING, of the state the handler left, summary moved out).  The database handle
is dropped when the database of `s2` is being deleted, and only then. -/
theorem Pull_implicit_resets {T : Types} (env : Collaborators T) (w : World T)
    (n qid : Option Int) (m : StdMap) (w' : World T) (pq : PreparedQuery T)
    (res : QueryHandlerResult) (s1 : Interpreter T) (st1 : T.Stream)
    (hret : Interpreter.Pull env w n qid = .ret m w')
    (hlive : live_query w.self (slot_index w qid) = some pq)
    (hrun : env.query_handler pq.query_handler n (w.self, w.result_stream) =
      .ret (some res) (s1, st1))
    (himp : s1.in_explicit_transaction_ = false) :
    w'.self.query_executions_ = [] ∧ w'.self.system_transaction_ = none ∧
    w'.self.transaction_queries_ = [] ∧
    ∃ e1 s2, s1.query_executions_[slot_index w qid]? = some (some e1) ∧
      (match res with
        | .COMMIT => env.Commit (summary_moved s1 (slot_index w qid) e1) = .ret () s2
        | .ABORT => env.Abort (summary_moved s1 (slot_index w qid) e1) = .ret () s2
        | .NOTHING => s2 = summary_moved s1 (slot_index w qid) e1) ∧
      w'.self = s2.ResetInterpreter ∧
      (∀ db, s2.current_db_.db_acc_ = some db → db.is_deleting = true →
        w'.self.current_db_.db_acc_ = none) ∧
      (w'.self.current_db_.db_acc_ ≠ s2.current_db_.db_acc_ →
        ∃ db, s2.current_db_.db_acc_ = some db ∧ db.is_deleting = true) := by
  obtain ⟨pq', r, s1', st1', haddr, hrun', hr⟩ := Pull_ret_cases hret
  have hpq : pq' = pq := by
    have := haddr.live
    rw [hlive] at this
    exact (Option.some.inj this).symm
  subst hpq
  rw [hrun] at hrun'
  simp only [Call.ret.injEq, Option.some.injEq, Prod.mk.injEq] at hrun'
  obtain ⟨hr1, hs1, hst1⟩ := hrun'
  subst hr1 hs1 hst1
  obtain ⟨e1, w1, hslot, -, hfin, hw'⟩ := hr
  obtain ⟨s2, hs2, -, hres⟩ := (Pull_finished_done hfin).2 himp
  have hself : w'.self = s2.ResetInterpreter := by rw [hw']; exact hs2
  obtain ⟨c1, c2, c3⟩ := ResetInterpreter_cleared s2
  have hdb := ResetInterpreter_db_acc s2
  refine ⟨hself ▸ c1, hself ▸ c2, hself ▸ c3, e1, s2, hslot, ?_, hself, ?_, ?_⟩
  · cases res with
    | COMMIT => exact hres.1
    | ABORT => exact hres.1
    | NOTHING => exact hres.1
  · intro db hdb1 hdel
    rw [hself, hdb, hdb1]
    simp [hdel]
  · intro hne
    rw [hself, hdb] at hne
    cases hdb1 : s2.current_db_.db_acc_ with
    | none => simp [hdb1] at hne
    | some db =>
      refine ⟨db, rfl, ?_⟩
      cases hdel : db.is_deleting with
      | true => rfl
      | false => simp [hdb1, hdel] at hne

/-- Witness of C8: outside an explicit transaction, a table of two live slots; no qid is
supplied, and the handler of the last slot finishes with ABORT. -/
theorem Pull_implicit_resets_witness :
    exAfterAbort.self.query_executions_ = [] ∧ exAfterAbort.self.system_transaction_ = none ∧
    exAfterAbort.self.transaction_queries_ = [] ∧
    ∃ e1 s2, (exSession false [some (exSlot .more), some (exSlot (.finish .ABORT))]).self.query_executions_[
        slot_index (exSession false [some (exSlot .more), some (exSlot (.finish .ABORT))]) none]? = some (some e1) ∧
      (match QueryHandlerResult.ABORT with
        | .COMMIT => exEnv.Commit (summary_moved (exSession false [some (exSlot .more), some (exSlot (.finish .ABORT))]).self
            (slot_index (exSession false [some (exSlot .more), some (exSlot (.finish .ABORT))]) none) e1) = .ret () s2
        | .ABORT => exEnv.Abort (summary_moved (exSession false [some (exSlot .more), some (exSlot (.finish .ABORT))]).self
            (slot_index (exSession false [some (exSlot .more), some (exSlot (.finish .ABORT))]) none) e1) = .ret () s2
        | .NOTHING => s2 = summary_moved (exSession false [some (exSlot .more), some (exSlot (.finish .ABORT))]).self
            (slot_index (exSession false [some (exSlot .more), some (exSlot (.finish .ABORT))]) none) e1) ∧
      exAfterAbort.self = s2.ResetInterpreter ∧
      (∀ db, s2.current_db_.db_acc_ = some db → db.is_deleting = true →
        exAfterAbort.self.current_db_.db_acc_ = none) ∧
      (exAfterAbort.self.current_db_.db_acc_ ≠ s2.current_db_.db_acc_ →
        ∃ db, s2.current_db_.db_acc_ = some db ∧ db.is_deleting = true) :=
  Pull_implicit_resets exEnv (exSession false [some (exSlot .more), some (exSlot (.finish .ABORT))]) none none
    exReturned exAfterAbort (exQuery (.finish .ABORT)) .ABORT
    (exSession false [some (exSlot .more), some (exSlot (.finish .ABORT))]).self [] (by rfl) (by rfl) (by rfl) (by rfl)

/-- C9. Take a `Pull` that gets to the handler of slot `j`, whose handler returns an outcome
tag and leaves the session `s1` in an explicit transaction.  `Pull` returns, and the
interpreter it leaves is `s1` with slot `j` reset and nothing else changed; the stream is as
the handler left it; the calls `Pull` made are the handler and the two metrics calls, so
neither `Commit` nor `Abort`; the table keeps its length.  The map returned and the state
do not depend on the tag: a handler that differs in the tag only (`env2`, `res2`) gives the
same exit. -/
theorem Pull_explicit_only_retires {T : Types} (env env2 : Collaborators T) (w : World T)
    (n qid : Option Int) (j : Nat) (pq : PreparedQuery T) (res res2 : QueryHandlerResult)
    (s1 : Interpreter T) (st1 : T.Stream) (e1 : QueryExecution T)
    (haddr : Addresses w n qid j pq)
    (hrun : env.query_handler pq.query_handler n (w.self, w.result_stream) =
      .ret (some res) (s1, st1))
    (hrun2 : env2.query_handler pq.query_handler n (w.self, w.result_stream) =
      .ret (some res2) (s1, st1))
    (hconvert : env2.ConvertToMap = env.ConvertToMap)
    (hslot : s1.query_executions_[j]? = some (some e1))
    (hexp1 : s1.in_explicit_transaction_ = true) :
    ∃ m w', Interpreter.Pull env w n qid = .ret m w' ∧
      w'.self = { s1 with query_executions_ := s1.query_executions_.set j none } ∧
      w'.self.query_executions_.length = s1.query_executions_.length ∧
      w'.result_stream = st1 ∧
      w'.trace = w.trace ++ [Event.query_handler j n, Event.FirstSuccessfulQuery,
        Event.IncrementCounter Counter.SuccessfulQuery] ∧
      Event.Commit ∉ w'.trace.drop w.trace.length ∧
      Event.Abort ∉ w'.trace.drop w.trace.length ∧
      Interpreter.Pull env2 w n qid = .ret m w' := by
  refine ⟨_, _, Pull_explicit_finished env haddr hrun hslot hexp1, rfl, by simp, rfl, rfl,
    by simp, by simp, ?_⟩
  rw [Pull_explicit_finished env2 haddr hrun2 hslot hexp1]
  simp [fold_notifications, hconvert]

/-- Witness of C9: in an explicit transaction, qid 0 addresses a slot whose handler
finishes with COMMIT; the second collaborators make it finish with NOTHING. -/
theorem Pull_explicit_only_retires_witness :
    ∃ m w', Interpreter.Pull exEnv
        (exSession true [some (exSlot (.finish .COMMIT)), some (exSlot .more)]) none (some 0) =
        .ret m w' ∧
      w'.self = { (exSession true [some (exSlot (.finish .COMMIT)), some (exSlot .more)]).self with
        query_executions_ :=
          (exSession true [some (exSlot (.finish .COMMIT)), some (exSlot .more)]).self.query_executions_.set
            0 none } ∧
      w'.self.query_executions_.length =
        (exSession true [some (exSlot (.finish .COMMIT)), some (exSlot .more)]).self.query_executions_.length ∧
      w'.result_stream = [] ∧
      w'.trace = (exSession true [some (exSlot (.finish .COMMIT)), some (exSlot .more)]).trace ++
        [Event.query_handler 0 none, Event.FirstSuccessfulQuery,
          Event.IncrementCounter Counter.SuccessfulQuery] ∧
      Event.Commit ∉ w'.trace.drop
        (exSession true [some (exSlot (.finish .COMMIT)), some (exSlot .more)]).trace.length ∧
      Event.Abort ∉ w'.trace.drop
        (exSession true [some (exSlot (.finish .COMMIT)), some (exSlot .more)]).trace.length ∧
      Interpreter.Pull exEnvNothing
        (exSession true [some (exSlot (.finish .COMMIT)), some (exSlot .more)]) none (some 0) =
        .ret m w' :=
  Pull_explicit_only_retires exEnv exEnvNothing
    (exSession true [some (exSlot (.finish .COMMIT)), some (exSlot .more)]) none (some 0) 0
    (exQuery (.finish .COMMIT)) .COMMIT .NOTHING
    (exSession true [some (exSlot (.finish .COMMIT)), some (exSlot .more)]).self []
    (exSlot (.finish .COMMIT))
    ⟨Or.inl rfl, by decide, by decide, rfl, (fun k hk => by cases hk), rfl⟩ rfl rfl rfl rfl rfl

/-- Counterexample to C10.  Outside an explicit transaction: the first `Pull` returns with
`has_more = false` and leaves an empty slot table, and a second `Pull` throws the
`InvalidArgumentsException` for `qid`; the assertion of line 508 is not reached.  In an
explicit transaction: a second `Pull` on the retired slot with a negative row limit throws
the `InvalidArgumentsException` for `n`. -/
theorem second_Pull_throws :
    (Interpreter.Pull exEnv (exSession false [some (exBare (.finish .COMMIT))]) none none =
        .ret [("has_more", TypedValue.bool false)] exAfterCommit ∧
      exAfterCommit.self.query_executions_ = [] ∧
      Interpreter.Pull exEnv exAfterCommit none none =
        .throw (.InvalidArgumentsException "qid" "Query with specified ID does not exist!")
          exAfterCommit ∧
      ∀ t, Interpreter.Pull exEnv exAfterCommit none none ≠ .fatal .query_not_finished t) ∧
    (Interpreter.Pull exEnv (exSession true [some (exBare (.finish .COMMIT))]) none (some 0) =
        .ret [("has_more", TypedValue.bool false)] exAfterRetire ∧
      exAfterRetire.self.query_executions_ = [none] ∧
      Interpreter.Pull exEnv exAfterRetire (some (-1)) (some 0) =
        .throw (.InvalidArgumentsException "n" "Cannot fetch negative number of results!")
          exAfterRetire ∧
      ∀ t, Interpreter.Pull exEnv exAfterRetire (some (-1)) (some 0) ≠
        .fatal .query_not_finished t) := by
  have h1 : Interpreter.Pull exEnv exAfterCommit none none =
      .throw (.InvalidArgumentsException "qid" "Query with specified ID does not exist!")
        exAfterCommit := by rfl
  have h2 : Interpreter.Pull exEnv exAfterRetire (some (-1)) (some 0) =
      .throw (.InvalidArgumentsException "n" "Cannot fetch negative number of results!")
        exAfterRetire := by rfl
  refine ⟨⟨by rfl, rfl, h1, fun t h => ?_⟩, ⟨by rfl, rfl, h2, fun t h => ?_⟩⟩
  · rw [h1] at h
    exact Exit.noConfusion h
  · rw [h2] at h
    exact Exit.noConfusion h

/-- C10, amended. Let a `Pull` return after the handler of the slot it resolved returned an
outcome tag (so `has_more = false`), and let `w'` be the world it leaves.  If the handler
left the session in an explicit transaction, every second `Pull` on `w'` that resolves to
the same slot, with a row limit that is not negative, ends in the fatal assertion "Query
already finished executing!".  If the handler left the session outside an explicit
transaction, the slot table of `w'` is empty: a second `Pull` without qid throws the
`InvalidArgumentsException` for `qid` and leaves `w'` as it is, and no second `Pull`
whatever ends in that assertion. -/
theorem second_Pull_after_terminal {T : Types} (env : Collaborators T) (w : World T)
    (n qid : Option Int) (m : StdMap) (w' : World T) (pq : PreparedQuery T)
    (res : QueryHandlerResult) (s1 : Interpreter T) (st1 : T.Stream)
    (hret : Interpreter.Pull env w n qid = .ret m w')
    (hlive : live_query w.self (slot_index w qid) = some pq)
    (hrun : env.query_handler pq.query_handler n (w.self, w.result_stream) =
      .ret (some res) (s1, st1)) :
    StdMap.find "has_more" m = some (TypedValue.bool false) ∧
    (s1.in_explicit_transaction_ = true →
      ∀ n2 qid2 : Option Int, (∀ k, n2 = some k → 0 ≤ k) →
        qid_value w'.self.query_executions_.length qid2 = (slot_index w qid : Int) →
        Interpreter.Pull env w' n2 qid2 = .fatal .query_not_finished w'.trace ∧
        Assertion.message .query_not_finished = "Query already finished executing!") ∧
    (s1.in_explicit_transaction_ = false →
      w'.self.query_executions_ = [] ∧
      (∀ n2 : Option Int, Interpreter.Pull env w' n2 none =
        .throw (.InvalidArgumentsException "qid" "Query with specified ID does not exist!") w') ∧
      ∀ (n2 qid2 : Option Int) (t : List Event),
        Interpreter.Pull env w' n2 qid2 ≠ .fatal .query_not_finished t) := by
  obtain ⟨pq', r, s1', st1', haddr, hrun', hr⟩ := Pull_ret_cases hret
  have hpq : pq' = pq := by
    have := haddr.live
    rw [hlive] at this
    exact (Option.some.inj this).symm
  subst hpq
  rw [hrun] at hrun'
  simp only [Call.ret.injEq, Option.some.injEq, Prod.mk.injEq] at hrun'
  obtain ⟨hr1, hs1, hst1⟩ := hrun'
  subst hr1 hs1 hst1
  obtain ⟨e1, w1, hslot, hm, hfin, hw'⟩ := hr
  refine ⟨by rw [hm, StdMap.find_insert_or_assign_self], ?_, ?_⟩
  · intro hexp n2 qid2 hn2 hq
    rw [Pull_finished_explicit env _ _ res e1 hexp] at hfin
    simp only [TryExit.done.injEq, true_and] at hfin
    subst hfin
    subst hw'
    refine ⟨?_, rfl⟩
    have hlt : slot_index w qid < s1.query_executions_.length := by
      by_contra hge
      rw [List.getElem?_eq_none (Nat.le_of_not_lt hge)] at hslot
      exact Option.noConfusion hslot
    simp only [List.length_set] at hq
    have hrange : qid_out_of_range s1.query_executions_.length (slot_index w qid : Int) = false := by
      simp only [qid_out_of_range, Bool.or_eq_false_iff, decide_eq_false_iff_not, not_lt, not_le]
      exact ⟨Int.natCast_nonneg _, by exact_mod_cast hlt⟩
    have hn2' : n2.any (fun limit => decide (limit < 0)) = false := by
      cases n2 with
      | none => rfl
      | some k =>
        have := hn2 k rfl
        simp only [Option.any_some, decide_eq_false_iff_not, not_lt]
        exact this
    simp [Interpreter.Pull, hexp, hq, hrange, hn2', List.getD_eq_getElem?_getD,
      List.getElem?_set_self hlt]
  · intro himp
    obtain ⟨s2, hs2, -, -⟩ := (Pull_finished_done hfin).2 himp
    have hself : w'.self = s2.ResetInterpreter := by rw [hw']; exact hs2
    have hempty : w'.self.query_executions_ = [] := hself ▸ (ResetInterpreter_cleared s2).1
    refine ⟨hempty, ?_, ?_⟩
    · intro n2
      simp [Interpreter.Pull, hempty, qid_value_empty, qid_out_of_range]
    · intro n2 qid2 t h
      unfold Interpreter.Pull at h
      simp only [hempty, List.length_nil] at h
      split at h
      · simp at h
      · have hrange : qid_out_of_range 0 (qid_value 0 qid2) = true := by
          simp only [qid_out_of_range, Bool.or_eq_true, decide_eq_true_eq, Nat.cast_zero]
          exact lt_or_le _ _
        simp [hrange] at h

/-- Witness of C10, amended: in an explicit transaction, the first `Pull` with qid 0
retires the only slot; every second `Pull` that resolves to slot 0 ends in the assertion. -/
theorem second_Pull_after_terminal_witness :
    StdMap.find "has_more" [("has_more", TypedValue.bool false)] = some (TypedValue.bool false) ∧
    ∀ n2 qid2 : Option Int, (∀ k, n2 = some k → 0 ≤ k) →
      qid_value exAfterRetire.self.query_executions_.length qid2 =
        (slot_index (exSession true [some (exBare (.finish .COMMIT))]) (some 0) : Int) →
      Interpreter.Pull exEnv exAfterRetire n2 qid2 =
        .fatal .query_not_finished exAfterRetire.trace ∧
      Assertion.message .query_not_finished = "Query already finished executing!" :=
  have h := second_Pull_after_terminal exEnv (exSession true [some (exBare (.finish .COMMIT))])
    none (some 0) [("has_more", TypedValue.bool false)] exAfterRetire
    (exQuery (.finish .COMMIT)) .COMMIT (exSession true [some (exBare (.finish .COMMIT))]).self []
    (by rfl) (by rfl) (by rfl)
  ⟨h.1, h.2.1 rfl⟩


/-! ## Further lemmas -/

theorem Pull_finished_fatal {T : Types} {env : Collaborators T} {w : World T} {j : Nat}
    {res : QueryHandlerResult} {e : QueryExecution T} {a : Assertion} {t : List Event}
    (h : Pull_finished env w j res e = .fatal a t) : a = .no_transactional_accessor := by
  unfold Pull_finished at h
  simp only at h
  split at h
  · cases res with
    | COMMIT =>
      simp only [try_call] at h
      split at h <;> simp at h
    | ABORT =>
      simp only [try_call] at h
      split at h <;> simp at h
    | NOTHING =>
      simp only at h
      split at h
      · simp only [TryExit.fatal.injEq] at h
        exact h.1.symm
      · simp at h
  · simp at h

theorem Pull_try_fatal {T : Types} {env : Collaborators T} {w : World T} {n : Option Int}
    {j : Nat} {pq : PreparedQuery T} {a : Assertion} {t : List Event}
    (h : Pull_try env w n j pq = .fatal a t) : a = .no_transactional_accessor := by
  unfold Pull_try at h
  simp only at h
  split at h
  · simp at h
  · simp at h
  · simp at h
  · split at h
    · exact Pull_finished_fatal h
    · simp at h

theorem Pull_catch_ne_fatal {T : Types} (env : Collaborators T) (j : Nat) (e : Exception)
    (w : World T) (a : Assertion) (t : List Event) : Pull_catch env j e w ≠ .fatal a t := by
  unfold Pull_catch catch_call
  intro h
  split at h
  · split at h
    · simp only at h
      split at h <;> simp at h
    · simp at h
    · simp at h
  · split at h
    · simp only at h
      split at h <;> simp at h
    · simp at h
    · simp at h
  · simp at h

theorem Pull_return_ne_fatal {T : Types} (ms : Option StdMap) (w : World T) (a : Assertion)
    (t : List Event) : Pull_return ms w ≠ .fatal a t := by
  unfold Pull_return
  intro h
  split at h <;> simp at h

/-- A `Pull` that got to the handler of slot `j`, whose handler raised: the `catch` clauses
run on the state the handler left. -/
theorem Pull_of_raised {T : Types} (env : Collaborators T) {w : World T}
    {n qid : Option Int} {j : Nat} {pq : PreparedQuery T} {e : Exception}
    {s1 : Interpreter T} {st1 : T.Stream}
    (haddr : Addresses w n qid j pq)
    (hrun : env.query_handler pq.query_handler n (w.self, w.result_stream) = .raise e (s1, st1)) :
    Interpreter.Pull env w n qid =
      Pull_catch env j e
        { self := s1, result_stream := st1, trace := w.trace ++ [Event.query_handler j n] } := by
  rw [Pull_of_addresses env haddr]
  simp only [Pull_try, hrun]

/-! ## The claims, continued -/

/-- C11. Outside an explicit transaction, for every supplied qid, in range or not, and every
row limit, negative or not, `Pull` ends in the fatal assertion "qid can be only used in
explicit transaction!" with the trace of its entry: no handler and no other collaborator
has been called, and neither argument check has thrown.  In an explicit transaction, or
when no qid is supplied, `Pull` never ends in this assertion. -/
theorem Pull_qid_assertion {T : Types} (env : Collaborators T) (w : World T)
    (n qid : Option Int) :
    (w.self.in_explicit_transaction_ = false → ∀ q, qid = some q →
      Interpreter.Pull env w n qid = .fatal .qid_in_explicit_transaction w.trace ∧
      Assertion.message .qid_in_explicit_transaction =
        "qid can be only used in explicit transaction!") ∧
    (w.self.in_explicit_transaction_ = true ∨ qid = none →
      ∀ t, Interpreter.Pull env w n qid ≠ .fatal .qid_in_explicit_transaction t) := by
  constructor
  · intro himp q hq
    subst hq
    exact ⟨by simp [Interpreter.Pull, himp], rfl⟩
  · intro hallowed t h
    have h1 : (w.self.in_explicit_transaction_ || qid.isNone) = true := by
      rcases hallowed with h1 | h1 <;> simp [h1]
    unfold Interpreter.Pull at h
    simp only [h1, Bool.not_true, Bool.false_eq_true, ↓reduceIte] at h
    split at h
    · simp at h
    · split at h
      · simp at h
      · split at h
        · simp at h
        · split at h
          · exact Pull_return_ne_fatal _ _ _ _ h
          · exact Pull_catch_ne_fatal _ _ _ _ _ _ h
          · rename_i a t2 htry
            have := Pull_try_fatal htry
            simp only [Exit.fatal.injEq] at h
            rw [this] at h
            exact absurd h.1 (by decide)
          · simp at h
          · simp at h

/-- Witness of C11: outside an explicit transaction, qid 7 on a one-slot table with the row
limit -3 ends in the assertion, with an empty trace. -/
theorem Pull_qid_assertion_witness :
    Interpreter.Pull exEnv (exSession false [some (exSlot .more)]) (some (-3)) (some 7) =
      .fatal .qid_in_explicit_transaction (exSession false [some (exSlot .more)]).trace ∧
    Assertion.message .qid_in_explicit_transaction =
      "qid can be only used in explicit transaction!" :=
  (Pull_qid_assertion exEnv (exSession false [some (exSlot .more)]) (some (-3)) (some 7)).1
    rfl 7 rfl

/-- Without a qid and with at most `2 ^ 31` slots, `qid_value` is the last index. -/
theorem qid_value_last (size : Nat) (h1 : 1 ≤ size) (h2 : size ≤ 2 ^ 31) :
    qid_value size none = ((size - 1 : Nat) : Int) := by
  have e1 : (size + 2 ^ 64 - 1) % 2 ^ 64 = size - 1 := by
    norm_num at h2 ⊢
    omega
  have e2 : (size - 1) % 2 ^ 32 = size - 1 := by
    norm_num at h2 ⊢
    omega
  have e3 : size - 1 < 2 ^ 31 := by
    norm_num at h2 ⊢
    omega
  simp only [qid_value, toInt32, e1, e2, e3, ↓reduceIte]

/-- C12. The code at the failing input: a table of `2 ^ 31 + 1` slots whose last slot is
live.  Without a qid `Pull` should address the last slot (lines 372-373: "otherwise the last
query should be used"), but `size - 1` does not fit the `int` it is cast to at line 497:
`qid_value` is `-2 ^ 31` and `Pull` throws the `InvalidArgumentsException` for `qid`; the
last slot is not addressed. -/
theorem Pull_default_qid_wraps :
    exHuge.self.query_executions_.length = 2 ^ 31 + 1 ∧
    exHuge.self.query_executions_.getLast? = some (some (exSlot (.finish .COMMIT))) ∧
    qid_value exHuge.self.query_executions_.length none = -2 ^ 31 ∧
    Interpreter.Pull exEnv exHuge none none =
      .throw (.InvalidArgumentsException "qid" "Query with specified ID does not exist!") exHuge := by
  have hlen : exHuge.self.query_executions_.length = 2 ^ 31 + 1 := by
    show (List.replicate (2 ^ 31) none ++ [some (exSlot (.finish .COMMIT))]).length = 2 ^ 31 + 1
    rw [List.length_append, List.length_replicate]
    rfl
  have hq : qid_value (2 ^ 31 + 1) none = -2 ^ 31 := by
    simp [qid_value, toInt32]
  have hr : qid_out_of_range (2 ^ 31 + 1) (-2 ^ 31) = true := by
    simp [qid_out_of_range]
  refine ⟨hlen, ?_, ?_, ?_⟩
  · show (List.replicate (2 ^ 31) none ++ [some (exSlot (.finish .COMMIT))]).getLast? = _
    rw [List.getLast?_append]
    rfl
  · rw [hlen, hq]
  · have hexp : exHuge.self.in_explicit_transaction_ = false := rfl
    unfold Interpreter.Pull
    simp only [hlen, hq, hexp, hr, Option.isNone_none, Bool.or_true, Bool.not_true,
      Bool.false_eq_true, ↓reduceIte]

/-- The default qid where the cast of line 497 is exact.  For every session with a non-empty
slot table of at most `2 ^ 31` slots,
`Pull` called without a qid resolves to the index `size - 1`: with a row limit that is not
negative it gets to the handler of that slot when the slot is live, and ends in the
liveness assertion when it is not.  With an empty slot table and no qid, `Pull` throws the
`InvalidArgumentsException` for `qid` and leaves the session as it was. -/
theorem Pull_default_qid {T : Types} (env : Collaborators T) (w : World T) (n : Option Int) :
    (1 ≤ w.self.query_executions_.length → w.self.query_executions_.length ≤ 2 ^ 31 →
      qid_value w.self.query_executions_.length none =
        ((w.self.query_executions_.length - 1 : Nat) : Int) ∧
      slot_index w none = w.self.query_executions_.length - 1 ∧
      ((∀ k, n = some k → 0 ≤ k) →
        (∀ pq, live_query w.self (w.self.query_executions_.length - 1) = some pq →
          Addresses w n none (w.self.query_executions_.length - 1) pq) ∧
        (live_query w.self (w.self.query_executions_.length - 1) = none →
          Interpreter.Pull env w n none = .fatal .query_not_finished w.trace))) ∧
    (w.self.query_executions_.length = 0 →
      Interpreter.Pull env w n none =
        .throw (.InvalidArgumentsException "qid" "Query with specified ID does not exist!") w) := by
  constructor
  · intro h1 h2
    have hq := qid_value_last _ h1 h2
    have hidx : slot_index w none = w.self.query_executions_.length - 1 := by
      simp [slot_index, hq]
    refine ⟨hq, hidx, fun hn => ⟨fun pq hlive => ?_, fun hdead => ?_⟩⟩
    · refine ⟨Or.inr rfl, ?_, ?_, hidx.symm, hn, hlive⟩
      · rw [hq]
        exact Int.natCast_nonneg _
      · rw [hq]
        exact_mod_cast Nat.sub_lt h1 Nat.one_pos
    · have hrange : qid_out_of_range w.self.query_executions_.length
          ((w.self.query_executions_.length - 1 : Nat) : Int) = false := by
        simp only [qid_out_of_range, Bool.or_eq_false_iff, decide_eq_false_iff_not, not_lt, not_le]
        exact ⟨Int.natCast_nonneg _, by exact_mod_cast Nat.sub_lt h1 Nat.one_pos⟩
      have hn' : n.any (fun limit => decide (limit < 0)) = false := by
        cases n with
        | none => rfl
        | some k =>
          have := hn k rfl
          simp only [Option.any_some, decide_eq_false_iff_not, not_lt]
          exact this
      unfold live_query at hdead
      unfold Interpreter.Pull
      simp only [Option.isNone_none, Bool.or_true, Bool.not_true, Bool.false_eq_true, ↓reduceIte,
        hq, hrange, hn', Int.toNat_ofNat, hdead]
  · intro h0
    unfold Interpreter.Pull
    simp [h0, qid_value_empty, qid_out_of_range]

/-- The default qid on a table of two slots, the last one live, and on the empty table. -/
theorem Pull_default_qid_witness :
    (qid_value (exSession false [none, some (exSlot .more)]).self.query_executions_.length none =
        (((exSession false [none, some (exSlot .more)]).self.query_executions_.length - 1 : Nat) : Int) ∧
      slot_index (exSession false [none, some (exSlot .more)]) none = 1 ∧
      Addresses (exSession false [none, some (exSlot .more)]) (some 5) none 1 (exQuery .more)) ∧
    Interpreter.Pull exEnv (exSession false []) (some 5) none =
      .throw (.InvalidArgumentsException "qid" "Query with specified ID does not exist!")
        (exSession false []) :=
  have h := (Pull_default_qid exEnv (exSession false [none, some (exSlot .more)]) (some 5)).1
    (by decide) (by decide)
  ⟨⟨h.1, h.2.1, (h.2.2 (fun k hk => by cases hk; decide)).1 (exQuery .more) rfl⟩,
    (Pull_default_qid exEnv (exSession false []) (some 5)).2 rfl⟩

/-- C13. Take a `Pull` that gets to the handler of slot `j`, whose handler raises an
exception `e` derived from `utils::BasicException` other than
`ExplicitTransactionUsageException`.  `Pull` returns no map, and whatever way it ends it
increments `SuccessfulQuery` zero times and calls neither `Abort` nor `Commit`.  When the
logging and `AbortCommand` return, `Pull` throws `e` itself, and the calls it made after
the handler are: the logging of `e.what()`, `FirstFailedQuery`, one increment of
`FailedQuery`, one increment of `FailedPull`, and `AbortCommand` on slot `j`, once and on
no other slot. -/
theorem Pull_execution_error {T : Types} (env : Collaborators T) (w : World T)
    (n qid : Option Int) (j : Nat) (pq : PreparedQuery T) (what : String)
    (s1 : Interpreter T) (st1 : T.Stream)
    (haddr : Addresses w n qid j pq)
    (hrun : env.query_handler pq.query_handler n (w.self, w.result_stream) =
      .raise (.BasicException what) (s1, st1)) :
    (∀ m w', Interpreter.Pull env w n qid ≠ .ret m w') ∧
    (∃ calls, (Interpreter.Pull env w n qid).trace = w.trace ++ Event.query_handler j n :: calls ∧
      increments .SuccessfulQuery calls = 0 ∧ calls.count Event.Abort = 0 ∧
      calls.count Event.Commit = 0) ∧
    (∀ s2 s3, env.LogQueryMessage what s1 = .ret () s2 → env.AbortCommand j s2 = .ret () s3 →
      Interpreter.Pull env w n qid =
        .throw (.rethrown (.BasicException what))
          { self := s3, result_stream := st1,
            trace := w.trace ++ [Event.query_handler j n, Event.LogQueryMessage what,
              Event.FirstFailedQuery, Event.IncrementCounter .FailedQuery,
              Event.IncrementCounter .FailedPull, Event.AbortCommand j] } ∧
      increments .FailedQuery ((Interpreter.Pull env w n qid).trace.drop w.trace.length) = 1 ∧
      increments .FailedPull ((Interpreter.Pull env w n qid).trace.drop w.trace.length) = 1 ∧
      increments .SuccessfulQuery ((Interpreter.Pull env w n qid).trace.drop w.trace.length) = 0 ∧
      ((Interpreter.Pull env w n qid).trace.drop w.trace.length).count (Event.AbortCommand j) = 1 ∧
      (∀ i, i ≠ j →
        Event.AbortCommand i ∉ (Interpreter.Pull env w n qid).trace.drop w.trace.length) ∧
      Event.Abort ∉ (Interpreter.Pull env w n qid).trace.drop w.trace.length) := by
  have hpull := Pull_of_raised env haddr hrun
  refine ⟨?_, ?_, ?_⟩
  · intro m w' h
    rw [hpull] at h
    exact Pull_catch_ne_ret _ _ _ _ _ _ h
  · rw [hpull]
    simp only [Pull_catch, catch_call]
    cases env.LogQueryMessage what s1 with
    | ret v s2 =>
      simp only
      cases env.AbortCommand j s2 with
      | ret v2 s3 =>
        exact ⟨[Event.LogQueryMessage what, Event.FirstFailedQuery,
          Event.IncrementCounter Counter.FailedQuery, Event.IncrementCounter Counter.FailedPull,
          Event.AbortCommand j], by simp [Exit.trace], by simp [increments], by simp, by simp⟩
      | raise e2 s3 =>
        exact ⟨[Event.LogQueryMessage what, Event.FirstFailedQuery,
          Event.IncrementCounter Counter.FailedQuery, Event.IncrementCounter Counter.FailedPull,
          Event.AbortCommand j], by simp [Exit.trace], by simp [increments], by simp, by simp⟩
      | terminate =>
        exact ⟨[Event.LogQueryMessage what, Event.FirstFailedQuery,
          Event.IncrementCounter Counter.FailedQuery, Event.IncrementCounter Counter.FailedPull,
          Event.AbortCommand j], by simp [Exit.trace], by simp [increments], by simp, by simp⟩
    | raise e2 s2 =>
      exact ⟨[Event.LogQueryMessage what], by simp [Exit.trace], by simp [increments],
        by simp, by simp⟩
    | terminate =>
      exact ⟨[Event.LogQueryMessage what], by simp [Exit.trace], by simp [increments],
        by simp, by simp⟩
  · intro s2 s3 hlog habort
    have hexit : Interpreter.Pull env w n qid =
        .throw (.rethrown (.BasicException what))
          { self := s3, result_stream := st1,
            trace := w.trace ++ [Event.query_handler j n, Event.LogQueryMessage what,
              Event.FirstFailedQuery, Event.IncrementCounter .FailedQuery,
              Event.IncrementCounter .FailedPull, Event.AbortCommand j] } := by
      rw [hpull]
      simp [Pull_catch, catch_call, hlog, habort]
    refine ⟨hexit, ?_, ?_, ?_, ?_, ?_, ?_⟩ <;> rw [hexit] <;>
      simp [Exit.trace, increments]

/-- Witness of C13: in an explicit transaction, the handler of slot 1 raises an execution
error; the collaborators of the example return at once. -/
theorem Pull_execution_error_witness :
    Interpreter.Pull exEnv
        (exSession true [none, some (exSlot (.fail (.BasicException "type error")))])
        none (some 1) =
      .throw (.rethrown (.BasicException "type error"))
        { self := (exSession true
            [none, some (exSlot (.fail (.BasicException "type error")))]).self,
          result_stream := [],
          trace := [Event.query_handler 1 none, Event.LogQueryMessage "type error",
            Event.FirstFailedQuery, Event.IncrementCounter .FailedQuery,
            Event.IncrementCounter .FailedPull, Event.AbortCommand 1] } :=
  ((Pull_execution_error exEnv
    (exSession true [none, some (exSlot (.fail (.BasicException "type error")))]) none (some 1) 1
    (exQuery (.fail (.BasicException "type error"))) "type error"
    (exSession true [none, some (exSlot (.fail (.BasicException "type error")))]).self []
    ⟨Or.inl rfl, by decide, by decide, rfl, (fun k hk => by cases hk), rfl⟩ rfl).2.2
    _ _ rfl rfl).1

/-- The cases of `ApproximateNextQueryPriority`, a function of the interpreter state alone.
It returns LOW whenever `in_explicit_transaction_` is set, whatever the slot table holds (empty,
or with a retired last slot); otherwise HIGH when the table is empty; otherwise the priority
recorded in the last slot, when that slot is live (with a retired last slot it dereferences
a reset pointer or an empty `prepared_query`).  Hence on a fresh session outside an
explicit transaction (`s0`) it reports HIGH, and after a first statement has been prepared
with the reported priority (`s1`, whose table is that of `s0` with one more slot, or is
empty again after the statement completed) it reports HIGH for the second statement too. -/
theorem ApproximateNextQueryPriority_law {T : Types} :
    (∀ s : Interpreter T, s.in_explicit_transaction_ = true →
      s.ApproximateNextQueryPriority = .ret utils.Priority.LOW) ∧
    (∀ s : Interpreter T, s.in_explicit_transaction_ = false → s.query_executions_ = [] →
      s.ApproximateNextQueryPriority = .ret utils.Priority.HIGH) ∧
    (∀ (s : Interpreter T) (e : QueryExecution T) (pq : PreparedQuery T),
      s.in_explicit_transaction_ = false → s.query_executions_.getLast? = some (some e) →
      e.prepared_query = some pq → s.ApproximateNextQueryPriority = .ret pq.priority) ∧
    (∀ s : Interpreter T, s.in_explicit_transaction_ = false →
      (s.query_executions_.getLast? = some none ∨
        ∃ e, s.query_executions_.getLast? = some (some e) ∧ e.prepared_query = none) →
      s.ApproximateNextQueryPriority = .undefined) ∧
    (∀ (s0 s1 : Interpreter T) (e : QueryExecution T) (pq : PreparedQuery T),
      s0.in_explicit_transaction_ = false → s0.query_executions_ = [] →
      s1.in_explicit_transaction_ = false →
      (s1.query_executions_ = [] ∨
        (s1.query_executions_ = s0.query_executions_ ++ [some e] ∧ e.prepared_query = some pq ∧
          s0.ApproximateNextQueryPriority = .ret pq.priority)) →
      s0.ApproximateNextQueryPriority = .ret utils.Priority.HIGH ∧
      s1.ApproximateNextQueryPriority = .ret utils.Priority.HIGH) := by
  have h1 : ∀ s : Interpreter T, s.in_explicit_transaction_ = true →
      s.ApproximateNextQueryPriority = .ret utils.Priority.LOW := by
    intro s h
    simp [Interpreter.ApproximateNextQueryPriority, h]
  have h2 : ∀ s : Interpreter T, s.in_explicit_transaction_ = false → s.query_executions_ = [] →
      s.ApproximateNextQueryPriority = .ret utils.Priority.HIGH := by
    intro s h he
    simp [Interpreter.ApproximateNextQueryPriority, h, he]
  have h3 : ∀ (s : Interpreter T) (e : QueryExecution T) (pq : PreparedQuery T),
      s.in_explicit_transaction_ = false → s.query_executions_.getLast? = some (some e) →
      e.prepared_query = some pq → s.ApproximateNextQueryPriority = .ret pq.priority := by
    intro s e pq h hl hp
    have hne : s.query_executions_.isEmpty = false := by
      cases hq : s.query_executions_ with
      | nil => rw [hq] at hl; simp at hl
      | cons a l => rfl
    simp [Interpreter.ApproximateNextQueryPriority, h, hne, hl, hp]
  refine ⟨h1, h2, h3, ?_, ?_⟩
  · intro s h hl
    have hne : s.query_executions_.isEmpty = false := by
      cases hq : s.query_executions_ with
      | nil => rw [hq] at hl; simp at hl
      | cons a l => rfl
    rcases hl with hl | ⟨e, hl, hp⟩
    · simp [Interpreter.ApproximateNextQueryPriority, h, hne, hl]
    · simp [Interpreter.ApproximateNextQueryPriority, h, hne, hl, hp]
  intro s0 s1 e pq h0 he0 h1' hs1
  have hhigh := h2 s0 h0 he0
  refine ⟨hhigh, ?_⟩
  rcases hs1 with hempty | ⟨happ, hp, hprio⟩
  · exact h2 s1 h1' hempty
  · have hl : s1.query_executions_.getLast? = some (some e) := by
      rw [happ]
      simp
    rw [h3 s1 e pq h1' hl hp, ← hprio, hhigh]

/-- The cases at work: in an explicit transaction with a retired last slot the answer is LOW;
outside, a last slot of priority LOW gives LOW; a fresh session gives HIGH, and so does the
session after one statement was prepared with that priority. -/
theorem ApproximateNextQueryPriority_law_witness :
    (exInterpreter true [some (exSlot .more), none]).ApproximateNextQueryPriority =
      .ret utils.Priority.LOW ∧
    (exInterpreter false [none, some { prepared_query := some (exPrioritised .LOW) }]).ApproximateNextQueryPriority =
      .ret (exPrioritised .LOW).priority ∧
    (exInterpreter false []).ApproximateNextQueryPriority = .ret utils.Priority.HIGH ∧
    (exInterpreter false
      [some { prepared_query := some (exPrioritised .HIGH) }]).ApproximateNextQueryPriority =
      .ret utils.Priority.HIGH :=
  ⟨ApproximateNextQueryPriority_law.1 (exInterpreter true [some (exSlot .more), none]) rfl,
    ApproximateNextQueryPriority_law.2.2.1
      (exInterpreter false [none, some { prepared_query := some (exPrioritised .LOW) }])
      { prepared_query := some (exPrioritised .LOW) } (exPrioritised .LOW) rfl rfl rfl,
    (ApproximateNextQueryPriority_law.2.2.2.2 (exInterpreter false [])
      (exInterpreter false [some { prepared_query := some (exPrioritised .HIGH) }])
      { prepared_query := some (exPrioritised .HIGH) } (exPrioritised .HIGH) rfl rfl rfl
      (Or.inr ⟨rfl, rfl, rfl⟩)).1,
    (ApproximateNextQueryPriority_law.2.2.2.2 (exInterpreter false [])
      (exInterpreter false [some { prepared_query := some (exPrioritised .HIGH) }])
      { prepared_query := some (exPrioritised .HIGH) } (exPrioritised .HIGH) rfl rfl rfl
      (Or.inr ⟨rfl, rfl, rfl⟩)).2⟩

/-- C14. The code at the failing input: outside an explicit transaction, `Pull` on a
statement whose handler raises an `ExplicitTransactionUsageException` resets the slot and
leaves it in the table (lines 564-567).  In the session it leaves, which is not in an
explicit transaction and has a table that is not empty, `ApproximateNextQueryPriority`
should return the priority of the last slot, but line 296 dereferences the reset pointer:
no priority is returned.  The same holds for a last slot whose `prepared_query` is empty. -/
theorem ApproximateNextQueryPriority_retired_last_slot :
    Interpreter.Pull exEnv
        (exSession false
          [some (exSlot (.fail (.ExplicitTransactionUsageException "no transaction")))])
        none none =
      .throw (.rethrown (.ExplicitTransactionUsageException "no transaction"))
        exAfterUsageError ∧
    exAfterUsageError.self.in_explicit_transaction_ = false ∧
    exAfterUsageError.self.query_executions_ = [none] ∧
    exAfterUsageError.self.ApproximateNextQueryPriority = .undefined ∧
    (∀ p, exAfterUsageError.self.ApproximateNextQueryPriority ≠ .ret p) ∧
    (exInterpreter false [some {}]).ApproximateNextQueryPriority = .undefined := by
  refine ⟨by rfl, rfl, rfl, rfl, fun p h => ?_, rfl⟩
  have h2 : PriorityExit.undefined = PriorityExit.ret p := h
  exact PriorityExit.noConfusion h2

/-- C15. The code at the failing input: a table of `2 ^ 31 + 1` slots whose last slot is
live with priority LOW.  Without a qid `GetQueryPriority` should look up the last slot, but
`size - 1` does not fit the `int` it is cast to at line 284, and `GetQueryPriority` throws
the `InvalidArgumentsException` instead of returning LOW. -/
theorem GetQueryPriority_default_wraps :
    exHugeTable.length = 2 ^ 31 + 1 ∧
    exHugeTable.getLast? = some (some { prepared_query := some (exPrioritised .LOW) }) ∧
    (exInterpreter false exHugeTable).GetQueryPriority none =
      .throw (.InvalidArgumentsException "qid" "Query with specified ID does not exist!") ∧
    (exInterpreter false exHugeTable).GetQueryPriority none ≠ .ret utils.Priority.LOW := by
  have hlen0 : exHugeTable.length = 2 ^ 31 + 1 := by
    unfold exHugeTable
    rw [List.length_append, List.length_replicate]
    rfl
  have hlen : (exInterpreter false exHugeTable).query_executions_.length = 2 ^ 31 + 1 := hlen0
  have hq : qid_value (2 ^ 31 + 1) none = -2 ^ 31 := by
    simp [qid_value, toInt32]
  have hr : qid_out_of_range (2 ^ 31 + 1) (-2 ^ 31) = true := by
    simp [qid_out_of_range]
  have hlast : exHugeTable.getLast? = some (some { prepared_query := some (exPrioritised .LOW) }) := by
    unfold exHugeTable
    rw [List.getLast?_append]
    rfl
  have hthrow : (exInterpreter false exHugeTable).GetQueryPriority none =
      .throw (.InvalidArgumentsException "qid" "Query with specified ID does not exist!") := by
    unfold Interpreter.GetQueryPriority
    simp only [hlen, hq, hr, ↓reduceIte]
  refine ⟨hlen0, hlast, hthrow, ?_⟩
  rw [hthrow]
  exact fun h => PriorityExit.noConfusion h

/-- The lookup where the cast of line 284 is exact.  `GetQueryPriority` is a function of the
interpreter state alone.  For
every qid in range whose slot holds a live prepared query it returns the priority recorded
in that slot; with no qid and a non-empty table of at most `2 ^ 31` slots it looks up the
last slot; for a qid that is negative or not less than the number of slots, and for no qid
with an empty table, it throws the `InvalidArgumentsException` for `qid`.  It resolves its
argument as `Pull` does: it throws exactly when the range test of `Pull` fails, and
whenever `Pull` gets to the handler of a slot, `GetQueryPriority` with the same qid returns
the priority of the prepared query of that slot. -/
theorem GetQueryPriority_lookup {T : Types} (s : Interpreter T) :
    (∀ (q : Int) (pq : PreparedQuery T), 0 ≤ q → q < s.query_executions_.length →
      live_query s q.toNat = some pq → s.GetQueryPriority (some q) = .ret pq.priority) ∧
    (∀ pq : PreparedQuery T, 1 ≤ s.query_executions_.length →
      s.query_executions_.length ≤ 2 ^ 31 →
      live_query s (s.query_executions_.length - 1) = some pq →
      s.GetQueryPriority none = .ret pq.priority) ∧
    (∀ q : Int, q < 0 ∨ (s.query_executions_.length : Int) ≤ q →
      s.GetQueryPriority (some q) =
        .throw (.InvalidArgumentsException "qid" "Query with specified ID does not exist!")) ∧
    (s.query_executions_.length = 0 →
      s.GetQueryPriority none =
        .throw (.InvalidArgumentsException "qid" "Query with specified ID does not exist!")) ∧
    (∀ qid : Option Int,
      (qid_out_of_range s.query_executions_.length
          (qid_value s.query_executions_.length qid) = true ↔
        s.GetQueryPriority qid =
          .throw (.InvalidArgumentsException "qid" "Query with specified ID does not exist!"))) ∧
    (∀ (w : World T) (n qid : Option Int) (j : Nat) (pq : PreparedQuery T), w.self = s →
      Addresses w n qid j pq → s.GetQueryPriority qid = .ret pq.priority) := by
  have hlive : ∀ (qid : Option Int) (pq : PreparedQuery T),
      qid_out_of_range s.query_executions_.length
        (qid_value s.query_executions_.length qid) = false →
      live_query s (qid_value s.query_executions_.length qid).toNat = some pq →
      s.GetQueryPriority qid = .ret pq.priority := by
    intro qid pq hr hl
    unfold live_query at hl
    unfold Interpreter.GetQueryPriority
    simp only [hr, Bool.false_eq_true, ↓reduceIte]
    cases hs : s.query_executions_.getD (qid_value s.query_executions_.length qid).toNat none with
    | none => rw [hs] at hl; simp at hl
    | some e =>
      rw [hs] at hl
      simp only [Option.some_bind] at hl
      simp only [hl]
  have hthrow : ∀ qid : Option Int,
      qid_out_of_range s.query_executions_.length
        (qid_value s.query_executions_.length qid) = true →
      s.GetQueryPriority qid =
        .throw (.InvalidArgumentsException "qid" "Query with specified ID does not exist!") := by
    intro qid hr
    unfold Interpreter.GetQueryPriority
    simp only [hr, ↓reduceIte]
  refine ⟨?_, ?_, ?_, ?_, ?_, ?_⟩
  · intro q pq h0 h1 hl
    refine hlive (some q) pq ?_ hl
    simp only [qid_out_of_range, qid_value, Bool.or_eq_false_iff, decide_eq_false_iff_not,
      not_lt, not_le]
    exact ⟨h0, h1⟩
  · intro pq h1 h2 hl
    have hq := qid_value_last _ h1 h2
    refine hlive none pq ?_ ?_
    · rw [hq]
      simp only [qid_out_of_range, Bool.or_eq_false_iff, decide_eq_false_iff_not, not_lt, not_le]
      exact ⟨Int.natCast_nonneg _, by exact_mod_cast Nat.sub_lt h1 Nat.one_pos⟩
    · rw [hq]
      simpa using hl
  · intro q hq
    refine hthrow (some q) ?_
    simp only [qid_out_of_range, qid_value, Bool.or_eq_true, decide_eq_true_eq]
    exact hq
  · intro h0
    refine hthrow none ?_
    rw [h0, qid_value_empty]
    rfl
  · intro qid
    refine ⟨hthrow qid, fun h => ?_⟩
    cases hr : qid_out_of_range s.query_executions_.length
        (qid_value s.query_executions_.length qid) with
    | true => rfl
    | false =>
      unfold Interpreter.GetQueryPriority at h
      simp only [hr, Bool.false_eq_true, ↓reduceIte] at h
      split at h
      · split at h <;> simp at h
      · simp at h
  · intro w n qid j pq hw haddr
    subst hw
    obtain ⟨-, h2, -, h4⟩ := haddr.checks
    exact hlive qid pq h2 h4

/-- The lookup on a table of a retired slot and a live slot of priority LOW. -/
theorem GetQueryPriority_lookup_witness :
    (exInterpreter true [none, some { prepared_query := some (exPrioritised .LOW) }]).GetQueryPriority
      (some 1) = .ret utils.Priority.LOW ∧
    (exInterpreter true [none, some { prepared_query := some (exPrioritised .LOW) }]).GetQueryPriority
      none = .ret utils.Priority.LOW ∧
    (exInterpreter true [none, some { prepared_query := some (exPrioritised .LOW) }]).GetQueryPriority
      (some 2) =
      .throw (.InvalidArgumentsException "qid" "Query with specified ID does not exist!") :=
  ⟨(GetQueryPriority_lookup
      (exInterpreter true [none, some { prepared_query := some (exPrioritised .LOW) }])).1
      1 (exPrioritised .LOW) (by decide) (by decide) rfl,
    (GetQueryPriority_lookup
      (exInterpreter true [none, some { prepared_query := some (exPrioritised .LOW) }])).2.1
      (exPrioritised .LOW) (by decide) (by decide) rfl,
    (GetQueryPriority_lookup
      (exInterpreter true [none, some { prepared_query := some (exPrioritised .LOW) }])).2.2.1
      2 (Or.inr (by decide))⟩

/-- C16. After `ResetDB` the database handle, the storage-transaction accessor, the
execution accessor and the trigger-context collector are all absent and `name()` is the
empty string (the explicit-database flag stays).  `SetCurrentDB(db, flag)` sets the handle
to `db` and the explicit-database flag to `flag`, and leaves the two accessors and the
collector as they were. -/
theorem CurrentDB_reset_and_set {T : Types} (c : CurrentDB T) (db : DatabaseAccess)
    (flag : Bool) :
    (c.ResetDB.db_acc_ = none ∧ c.ResetDB.db_transactional_accessor_ = none ∧
      c.ResetDB.execution_db_accessor_ = none ∧ c.ResetDB.trigger_context_collector_ = none ∧
      c.ResetDB.name = "" ∧ c.ResetDB.in_explicit_db_ = c.in_explicit_db_) ∧
    ((c.SetCurrentDB db flag).db_acc_ = some db ∧ (c.SetCurrentDB db flag).in_explicit_db_ = flag ∧
      (c.SetCurrentDB db flag).name = db.name ∧
      (c.SetCurrentDB db flag).db_transactional_accessor_ = c.db_transactional_accessor_ ∧
      (c.SetCurrentDB db flag).execution_db_accessor_ = c.execution_db_accessor_ ∧
      (c.SetCurrentDB db flag).trigger_context_collector_ = c.trigger_context_collector_ ∧
      c.SetCurrentDB db flag = { c with db_acc_ := some db, in_explicit_db_ := flag }) :=
  ⟨⟨rfl, rfl, rfl, rfl, rfl, rfl⟩, ⟨rfl, rfl, rfl, rfl, rfl, rfl, rfl⟩⟩

/-- C17. The two accessors are both absent in a binding made by either constructor, and
`SetCurrentDB` and `ResetDB` keep them paired: `SetCurrentDB` touches neither accessor, and
`ResetDB` resets both, whatever the binding was. -/
theorem CurrentDB_accessors_paired {T : Types} :
    (CurrentDB.default : CurrentDB T).accessors_paired ∧
    (∀ db : DatabaseAccess, (CurrentDB.of db : CurrentDB T).accessors_paired) ∧
    (∀ (c : CurrentDB T) (db : DatabaseAccess) (flag : Bool), c.accessors_paired →
      (c.SetCurrentDB db flag).accessors_paired) ∧
    (∀ c : CurrentDB T, c.accessors_paired → c.ResetDB.accessors_paired) ∧
    (∀ (c : CurrentDB T) (db : DatabaseAccess) (flag : Bool),
      (c.SetCurrentDB db flag).db_transactional_accessor_ = c.db_transactional_accessor_ ∧
      (c.SetCurrentDB db flag).execution_db_accessor_ = c.execution_db_accessor_) ∧
    (∀ c : CurrentDB T, c.ResetDB.db_transactional_accessor_ = none ∧
      c.ResetDB.execution_db_accessor_ = none) :=
  ⟨rfl, fun _ => rfl, fun _ _ _ h => h, fun _ _ => rfl, fun _ _ _ => ⟨rfl, rfl⟩,
    fun _ => ⟨rfl, rfl⟩⟩

/-- Witness of C17: a binding with both accessors open stays paired under `SetCurrentDB`
and under `ResetDB`. -/
theorem CurrentDB_accessors_paired_witness :
    (exBinding.SetCurrentDB { name := "memgraph", is_deleting := false } true).accessors_paired ∧
    exBinding.ResetDB.accessors_paired :=
  ⟨CurrentDB_accessors_paired.2.2.1 exBinding { name := "memgraph", is_deleting := false } true
      rfl,
    CurrentDB_accessors_paired.2.2.2.1 exBinding rfl⟩

/-- C18. In the default build (`MG_MEMORY_PROFILE` not defined) `resource()` is the member
`pool` of the allocator, `resource_without_pool()` is its member `monotonic`, which is the
resource that backs the pool, and `resource_without_pool_or_mono()` is the upstream
resource; the arena and the pool both fall back on the upstream resource.  In the
memory-profiling build all three are the upstream resource.  The upstream resource is the
same object whatever the build, the call and the allocator. -/
theorem QueryAllocator_resources (a b : QueryAllocator) (p q : Bool) :
    (a.resource false = MemoryResource.pool a.address ∧
      a.resource_without_pool false = MemoryResource.monotonic a.address ∧
      (∃ pool, a.pool false = some pool ∧ pool.backing = a.resource_without_pool false ∧
        pool.unpooled = QueryAllocator.upstream_resource) ∧
      (∃ arena, a.monotonic false = some arena ∧ arena.memory = QueryAllocator.upstream_resource) ∧
      a.resource_without_pool_or_mono false = QueryAllocator.upstream_resource) ∧
    (a.resource true = QueryAllocator.upstream_resource ∧
      a.resource_without_pool true = QueryAllocator.upstream_resource ∧
      a.resource_without_pool_or_mono true = QueryAllocator.upstream_resource) ∧
    a.resource_without_pool_or_mono p = b.resource_without_pool_or_mono q ∧
    (a.address ≠ b.address → a.resource false ≠ b.resource false ∧
      a.resource_without_pool false ≠ b.resource_without_pool false) := by
  refine ⟨⟨rfl, rfl, ⟨_, rfl, rfl, rfl⟩, ⟨_, rfl, rfl⟩, rfl⟩, ⟨rfl, rfl, rfl⟩, rfl, fun h => ?_⟩
  simp [QueryAllocator.resource, QueryAllocator.resource_without_pool, h]

/-- Witness of C18: two allocators at different addresses hand out different pools and
arenas, and the same upstream resource. -/
theorem QueryAllocator_resources_witness :
    (QueryAllocator.mk 1).resource false ≠ (QueryAllocator.mk 2).resource false ∧
    (QueryAllocator.mk 1).resource_without_pool false ≠
      (QueryAllocator.mk 2).resource_without_pool false ∧
    (QueryAllocator.mk 1).resource_without_pool_or_mono false =
      (QueryAllocator.mk 2).resource_without_pool_or_mono true :=
  ⟨((QueryAllocator_resources (QueryAllocator.mk 1) (QueryAllocator.mk 2) false true).2.2.2
      (by decide)).1,
    ((QueryAllocator_resources (QueryAllocator.mk 1) (QueryAllocator.mk 2) false true).2.2.2
      (by decide)).2,
    (QueryAllocator_resources (QueryAllocator.mk 1) (QueryAllocator.mk 2) false true).2.2.1⟩

/-- C19. Take a `Pull` that gets to the handler of slot `j`, whose handler raises an
`ExplicitTransactionUsageException` and leaves slot `j` in the table; the logging returns.
`Pull` throws the same exception.  The interpreter it leaves is the one after the logging
with slot `j` reset: the table keeps its length and its other slots.  The calls `Pull`
made are the handler and the logging only: no `AbortCommand`, `Commit` or `Abort`, and no
increment of `FailedQuery`, `FailedPull` or `SuccessfulQuery`.  With a handler that raises
another exception derived from `utils::BasicException` instead (`env2`), `Pull` increments
the two failure counters and calls `AbortCommand`, and does not reset the slot itself. -/
theorem Pull_explicit_usage_error {T : Types} (env env2 : Collaborators T) (w : World T)
    (n qid : Option Int) (j : Nat) (pq : PreparedQuery T) (what : String)
    (s1 s2 : Interpreter T) (st1 : T.Stream)
    (haddr : Addresses w n qid j pq)
    (hrun : env.query_handler pq.query_handler n (w.self, w.result_stream) =
      .raise (.ExplicitTransactionUsageException what) (s1, st1))
    (hlog : env.LogQueryMessage what s1 = .ret () s2)
    (hj : j < s2.query_executions_.length) :
    ∃ w', Interpreter.Pull env w n qid =
        .throw (.rethrown (.ExplicitTransactionUsageException what)) w' ∧
      w'.self = { s2 with query_executions_ := s2.query_executions_.set j none } ∧
      w'.self.query_executions_.length = s2.query_executions_.length ∧
      w'.self.query_executions_[j]? = some none ∧
      (∀ i, i ≠ j → w'.self.query_executions_[i]? = s2.query_executions_[i]?) ∧
      (s2.query_executions_ = w.self.query_executions_ →
        w'.self.query_executions_.length = w.self.query_executions_.length ∧
        ∀ i, i ≠ j → w'.self.query_executions_[i]? = w.self.query_executions_[i]?) ∧
      w'.trace = w.trace ++ [Event.query_handler j n, Event.LogQueryMessage what] ∧
      (∀ i, Event.AbortCommand i ∉ w'.trace.drop w.trace.length) ∧
      Event.Commit ∉ w'.trace.drop w.trace.length ∧
      Event.Abort ∉ w'.trace.drop w.trace.length ∧
      (∀ c, increments c (w'.trace.drop w.trace.length) = 0) ∧
      (∀ s3, env2.query_handler pq.query_handler n (w.self, w.result_stream) =
          .raise (.BasicException what) (s1, st1) →
        env2.LogQueryMessage what s1 = .ret () s2 → env2.AbortCommand j s2 = .ret () s3 →
        Interpreter.Pull env2 w n qid =
          .throw (.rethrown (.BasicException what))
            { self := s3, result_stream := st1,
              trace := w.trace ++ [Event.query_handler j n, Event.LogQueryMessage what,
                Event.FirstFailedQuery, Event.IncrementCounter .FailedQuery,
                Event.IncrementCounter .FailedPull, Event.AbortCommand j] }) := by
  have hexit : Interpreter.Pull env w n qid =
      .throw (.rethrown (.ExplicitTransactionUsageException what))
        { self := { s2 with query_executions_ := s2.query_executions_.set j none },
          result_stream := st1,
          trace := w.trace ++ [Event.query_handler j n, Event.LogQueryMessage what] } := by
    rw [Pull_of_raised env haddr hrun]
    simp [Pull_catch, catch_call, hlog, hj]
  refine ⟨_, hexit, rfl, by simp, by simp [List.getElem?_set_self hj], ?_, ?_, rfl, by simp,
    by simp, by simp, by simp [increments], ?_⟩
  · intro i hi
    simp only [List.getElem?_set_ne (Ne.symm hi)]
  · intro hsame
    refine ⟨by simp [hsame], fun i hi => ?_⟩
    simp only [List.getElem?_set_ne (Ne.symm hi), hsame]
  · intro s3 hrun2 hlog2 habort2
    rw [Pull_of_raised env2 haddr hrun2]
    simp [Pull_catch, catch_call, hlog2, habort2]

/-- Witness of C19: in an explicit transaction, the handler of slot 0 raises an
`ExplicitTransactionUsageException`; slot 1 stays as it is.  With `exEnvBasic` the same
script raises an execution error. -/
theorem Pull_explicit_usage_error_witness :
    ∃ w', Interpreter.Pull exEnv
        (exSession true
          [some (exSlot (.fail (.ExplicitTransactionUsageException "no commit"))),
            some (exSlot .more)]) none (some 0) =
        .throw (.rethrown (.ExplicitTransactionUsageException "no commit")) w' ∧
      w'.self.query_executions_ = [none, some (exSlot .more)] ∧
      w'.trace = [Event.query_handler 0 none, Event.LogQueryMessage "no commit"] ∧
      Interpreter.Pull exEnvBasic
        (exSession true
          [some (exSlot (.fail (.ExplicitTransactionUsageException "no commit"))),
            some (exSlot .more)]) none (some 0) =
        .throw (.rethrown (.BasicException "no commit"))
          { self := (exSession true
              [some (exSlot (.fail (.ExplicitTransactionUsageException "no commit"))),
                some (exSlot .more)]).self,
            result_stream := [],
            trace := [Event.query_handler 0 none, Event.LogQueryMessage "no commit",
              Event.FirstFailedQuery, Event.IncrementCounter .FailedQuery,
              Event.IncrementCounter .FailedPull, Event.AbortCommand 0] } :=
  (Pull_explicit_usage_error exEnv exEnvBasic
    (exSession true
      [some (exSlot (.fail (.ExplicitTransactionUsageException "no commit"))),
        some (exSlot .more)]) none (some 0) 0
    (exQuery (.fail (.ExplicitTransactionUsageException "no commit"))) "no commit"
    (exSession true
      [some (exSlot (.fail (.ExplicitTransactionUsageException "no commit"))),
        some (exSlot .more)]).self
    (exSession true
      [some (exSlot (.fail (.ExplicitTransactionUsageException "no commit"))),
        some (exSlot .more)]).self []
    ⟨Or.inl rfl, by decide, by decide, rfl, (fun k hk => by cases hk), rfl⟩ rfl rfl
    (by decide)).elim fun w' h =>
      ⟨w', h.1, by rw [h.2.1]; rfl, h.2.2.2.2.2.2.1, h.2.2.2.2.2.2.2.2.2.2.2 _ rfl rfl rfl⟩

end query

namespace storage

/-! ## Lemmas on `std::binary_search` and the collection -/

/-- In a list sorted in ascending order, an entry at a lower index is not greater. -/
theorem sorted_getElem?_le {L : Type} [LinearOrder L] {xs : List L}
    (hs : xs.Pairwise (· ≤ ·)) {i j : Nat} {a b : L} (hij : i ≤ j)
    (ha : xs[i]? = some a) (hb : xs[j]? = some b) : a ≤ b := by
  obtain ⟨hi, rfl⟩ := List.getElem?_eq_some.mp ha
  obtain ⟨hj, rfl⟩ := List.getElem?_eq_some.mp hb
  rcases Nat.lt_or_eq_of_le hij with hlt | heq
  · exact List.pairwise_iff_getElem.mp hs i j hi hj hlt
  · subst heq
    exact le_refl _

/-- The loop of `std::lower_bound` keeps its invariant: the entries below the result are
less than `value`, the entries from the result on are not. -/
theorem lower_bound_loop_spec {L : Type} [LinearOrder L] {xs : List L}
    (hs : xs.Pairwise (· ≤ ·)) (value : L) :
    ∀ fuel first count : Nat, count ≤ fuel → first + count ≤ xs.length →
      (∀ i x, xs[i]? = some x → i < first → x < value) →
      (∀ i x, xs[i]? = some x → first + count ≤ i → ¬ x < value) →
      lower_bound_loop xs value fuel first count ≤ xs.length ∧
      (∀ i x, xs[i]? = some x → i < lower_bound_loop xs value fuel first count → x < value) ∧
      (∀ i x, xs[i]? = some x → lower_bound_loop xs value fuel first count ≤ i → ¬ x < value) := by
  intro fuel
  induction fuel with
  | zero =>
    intro first count hc hlen hbelow habove
    have h0 : count = 0 := Nat.le_zero.mp hc
    subst h0
    exact ⟨by simpa [lower_bound_loop] using hlen, by simpa [lower_bound_loop] using hbelow,
      by simpa [lower_bound_loop] using habove⟩
  | succ fuel ih =>
    intro first count hc hlen hbelow habove
    unfold lower_bound_loop
    by_cases h0 : count = 0
    · subst h0
      exact ⟨by simpa using hlen, by simpa using hbelow, by simpa using habove⟩
    · simp only [h0, ↓reduceIte]
      have hstep : count / 2 < count := Nat.div_lt_self (Nat.pos_of_ne_zero h0) (by decide)
      have hit : first + count / 2 < xs.length := by omega
      rw [List.getElem?_eq_getElem hit]
      simp only
      have hmid : xs[first + count / 2]? = some xs[first + count / 2] :=
        List.getElem?_eq_getElem hit
      by_cases hlt : xs[first + count / 2] < value
      · simp only [hlt, ↓reduceIte]
        apply ih
        · omega
        · omega
        · intro i x hx hi
          have hle : x ≤ xs[first + count / 2] :=
            sorted_getElem?_le hs (by omega) hx hmid
          exact lt_of_le_of_lt hle hlt
        · intro i x hx hi
          exact habove i x hx (by omega)
      · simp only [hlt, ↓reduceIte]
        apply ih
        · omega
        · omega
        · exact hbelow
        · intro i x hx hi hxlt
          have hle : xs[first + count / 2] ≤ x := sorted_getElem?_le hs hi hmid hx
          exact hlt (lt_of_le_of_lt hle hxlt)

/-- On a list sorted in ascending order, `std::binary_search` tells whether the value is in
the list. -/
theorem binary_search_iff_mem {L : Type} [LinearOrder L] {xs : List L}
    (hs : xs.Pairwise (· ≤ ·)) (value : L) : binary_search xs value = true ↔ value ∈ xs := by
  obtain ⟨hlen, hbelow, habove⟩ := lower_bound_loop_spec hs value xs.length 0 xs.length
    (le_refl _) (by simp) (fun i x _ hi => absurd hi (Nat.not_lt_zero i))
    (fun i x hx hi => by
      have := (List.getElem?_eq_some.mp hx).1
      omega)
  have hr : lower_bound_loop xs value xs.length 0 xs.length = lower_bound xs value := rfl
  rw [hr] at hlen hbelow habove
  unfold binary_search
  constructor
  · intro h
    cases hx : xs[lower_bound xs value]? with
    | none => simp [hx] at h
    | some x =>
      simp only [hx, Bool.not_eq_true', decide_eq_false_iff_not] at h
      have h2 : ¬ x < value := habove _ x hx (le_refl _)
      have hxv : x = value := le_antisymm (not_lt.mp h) (not_lt.mp h2)
      rw [← hxv]
      exact List.getElem?_mem hx
  · intro hmem
    obtain ⟨i, hi⟩ := List.getElem?_of_mem hmem
    have hri : lower_bound xs value ≤ i := by
      by_contra hcon
      exact absurd (hbelow i value hi (Nat.lt_of_not_le hcon)) (lt_irrefl _)
    have hilen := (List.getElem?_eq_some.mp hi).1
    have hrlen : lower_bound xs value < xs.length := by omega
    rw [List.getElem?_eq_getElem hrlen]
    simp only [Bool.not_eq_true', decide_eq_false_iff_not, not_lt]
    exact sorted_getElem?_le hs hri (List.getElem?_eq_getElem hrlen) hi

/-- A label below every key of the collection has no entry. -/
theorem AbortableInfo.find_eq_none_of_lt {L V : Type} [LinearOrder L] {label : L}
    {m : AbortableInfo L V} (h : ∀ p ∈ m, label < p.1) : AbortableInfo.find label m = none := by
  induction m with
  | nil => rfl
  | cons p rest ih =>
    obtain ⟨k, vs⟩ := p
    have hk : label < k := h (k, vs) (List.mem_cons_self _ _)
    have hne : label ≠ k := ne_of_lt hk
    simp only [AbortableInfo.find, hne, ↓reduceIte]
    exact ih fun p hp => h p (List.mem_cons_of_mem _ hp)

/-- In a collection whose keys are in strictly ascending order, as in every `std::map`, the
vertex goes to the end of the entry of its label. -/
theorem AbortableInfo.find_emplace_back_self {L V : Type} [LinearOrder L] (label : L)
    (vertex : V) (m : AbortableInfo L V) (hm : m.Pairwise fun a b => a.1 < b.1) :
    AbortableInfo.find label (AbortableInfo.emplace_back label vertex m) =
      some ((AbortableInfo.find label m).getD [] ++ [vertex]) := by
  induction m with
  | nil => simp [AbortableInfo.emplace_back, AbortableInfo.find]
  | cons p rest ih =>
    obtain ⟨k, vs⟩ := p
    obtain ⟨hhead, hrest⟩ := List.pairwise_cons.mp hm
    unfold AbortableInfo.emplace_back
    by_cases h1 : label = k
    · simp [h1, AbortableInfo.find]
    · by_cases h2 : label < k
      · have hnone : AbortableInfo.find label rest = none :=
          AbortableInfo.find_eq_none_of_lt fun p hp => lt_trans h2 (hhead p hp)
        simp [h1, h2, AbortableInfo.find, hnone]
      · simp [h1, h2, AbortableInfo.find, ih hrest]

/-- The keys after the insertion are the label and the keys before. -/
theorem AbortableInfo.key_of_mem_emplace_back {L V : Type} [LinearOrder L] {label : L}
    {vertex : V} {m : AbortableInfo L V} {p : L × List V}
    (h : p ∈ AbortableInfo.emplace_back label vertex m) :
    p.1 = label ∨ ∃ q ∈ m, q.1 = p.1 := by
  induction m with
  | nil =>
    simp only [AbortableInfo.emplace_back, List.mem_singleton] at h
    exact Or.inl (by rw [h])
  | cons q rest ih =>
    obtain ⟨k, vs⟩ := q
    unfold AbortableInfo.emplace_back at h
    by_cases h1 : label = k
    · simp only [h1, ↓reduceIte, List.mem_cons] at h
      rcases h with h | h
      · exact Or.inr ⟨(k, vs), List.mem_cons_self _ _, by rw [h]⟩
      · exact Or.inr ⟨p, List.mem_cons_of_mem _ h, rfl⟩
    · by_cases h2 : label < k
      · simp only [h1, h2, ↓reduceIte, List.mem_cons] at h
        rcases h with h | h | h
        · exact Or.inl (by rw [h])
        · exact Or.inr ⟨(k, vs), List.mem_cons_self _ _, by rw [h]⟩
        · exact Or.inr ⟨p, List.mem_cons_of_mem _ h, rfl⟩
      · simp only [h1, h2, ↓reduceIte, List.mem_cons] at h
        rcases h with h | h
        · exact Or.inr ⟨(k, vs), List.mem_cons_self _ _, by rw [h]⟩
        · rcases ih h with h3 | ⟨q, hq, hq1⟩
          · exact Or.inl h3
          · exact Or.inr ⟨q, List.mem_cons_of_mem _ hq, hq1⟩

/-- The insertion keeps the keys in strictly ascending order. -/
theorem AbortableInfo.emplace_back_sorted {L V : Type} [LinearOrder L] (label : L)
    (vertex : V) (m : AbortableInfo L V) (hm : m.Pairwise fun a b => a.1 < b.1) :
    (AbortableInfo.emplace_back label vertex m).Pairwise fun a b => a.1 < b.1 := by
  induction m with
  | nil => simp [AbortableInfo.emplace_back]
  | cons q rest ih =>
    obtain ⟨k, vs⟩ := q
    obtain ⟨hhead, hrest⟩ := List.pairwise_cons.mp hm
    unfold AbortableInfo.emplace_back
    by_cases h1 : label = k
    · simp only [h1, ↓reduceIte]
      exact List.pairwise_cons.mpr ⟨hhead, hrest⟩
    · by_cases h2 : label < k
      · simp only [h1, h2, ↓reduceIte]
        refine List.pairwise_cons.mpr ⟨fun p hp => ?_, hm⟩
        rcases List.mem_cons.mp hp with hp | hp
        · rw [hp]
          exact h2
        · exact lt_trans h2 (hhead p hp)
      · simp only [h1, h2, ↓reduceIte]
        refine List.pairwise_cons.mpr ⟨fun p hp => ?_, ih hrest⟩
        rcases AbortableInfo.key_of_mem_emplace_back hp with hp | ⟨q, hq, hq1⟩
        · rw [hp]
          exact lt_of_le_of_ne (not_lt.mp h2) (Ne.symm h1)
        · rw [← hq1]
          exact hhead q hq

theorem AbortableInfo.find_emplace_back_of_ne {L V : Type} [LinearOrder L] {label k : L}
    (h : k ≠ label) (vertex : V) (m : AbortableInfo L V) :
    AbortableInfo.find k (AbortableInfo.emplace_back label vertex m) =
      AbortableInfo.find k m := by
  induction m with
  | nil => simp [AbortableInfo.emplace_back, AbortableInfo.find, h]
  | cons p rest ih =>
    obtain ⟨k2, vs⟩ := p
    unfold AbortableInfo.emplace_back
    by_cases h1 : label = k2
    · subst h1
      simp [AbortableInfo.find, h]
    · by_cases h2 : label < k2
      · simp [h1, h2, AbortableInfo.find, h]
      · by_cases h3 : k = k2
        · simp [h1, h2, AbortableInfo.find, h3]
        · simp [h1, h2, AbortableInfo.find, h3, ih]

/-- A key of the collection has an entry. -/
theorem AbortableInfo.find_of_mem_keys {L V : Type} [LinearOrder L] {k : L}
    {m : AbortableInfo L V} (h : k ∈ m.map Prod.fst) : ∃ vs, AbortableInfo.find k m = some vs := by
  induction m with
  | nil => simp at h
  | cons p rest ih =>
    obtain ⟨k2, vs⟩ := p
    by_cases h1 : k = k2
    · exact ⟨vs, by simp [AbortableInfo.find, h1]⟩
    · have h2 : k ∈ rest.map Prod.fst := by
        simpa [h1] using h
      obtain ⟨vs2, hvs2⟩ := ih h2
      exact ⟨vs2, by simp [AbortableInfo.find, h1, hvs2]⟩

theorem vertices_of_append {L V : Type} [LinearOrder L] (calls : List (L × V)) (call : L × V)
    (label : L) :
    vertices_of (calls ++ [call]) label =
      vertices_of calls label ++ (if call.1 = label then [call.2] else []) := by
  unfold vertices_of
  by_cases h : call.1 = label <;> simp [List.filter_append, List.filter_cons, h]

/-- With a sorted label list, a call with a label of the list inserts into the collection. -/
theorem collect_of_mem {L V : Type} [LinearOrder L] (p : AbortProcessor L V) {label : L}
    (vertex : V) (hs : p.label_.Pairwise (· ≤ ·)) (h : label ∈ p.label_) :
    p.collect_on_label_removal label vertex =
      { p with
        cleanup_collection_ := AbortableInfo.emplace_back label vertex p.cleanup_collection_ } := by
  unfold AbortProcessor.collect_on_label_removal
  rw [(binary_search_iff_mem hs label).mpr h]
  rfl

/-- With a sorted label list, a call with a label outside the list changes nothing. -/
theorem collect_of_not_mem {L V : Type} [LinearOrder L] (p : AbortProcessor L V) {label : L}
    (vertex : V) (hs : p.label_.Pairwise (· ≤ ·)) (h : label ∉ p.label_) :
    p.collect_on_label_removal label vertex = p := by
  unfold AbortProcessor.collect_on_label_removal
  have hb : binary_search p.label_ label = false := by
    cases hbs : binary_search p.label_ label with
    | false => rfl
    | true => exact absurd ((binary_search_iff_mem hs label).mp hbs) h
  rw [hb]
  rfl

/-- The processor after a sequence of calls: the label list is the constructor's, the keys of
the collection are in order, and the entry of a label is the list of its vertices when the
label is in the list and was seen, and is absent otherwise. -/
theorem collect_all_spec {L V : Type} [LinearOrder L] (labels : List L)
    (hs : labels.Pairwise (· ≤ ·)) (calls : List (L × V)) :
    ((AbortProcessor.create labels : AbortProcessor L V).collect_all calls).label_ = labels ∧
    ((AbortProcessor.create labels : AbortProcessor L V).collect_all
      calls).cleanup_collection_.Pairwise (fun a b => a.1 < b.1) ∧
    ∀ l, AbortableInfo.find l
        ((AbortProcessor.create labels : AbortProcessor L V).collect_all
          calls).cleanup_collection_ =
      if l ∈ labels ∧ (vertices_of calls l).isEmpty = false then some (vertices_of calls l)
      else none := by
  induction calls using List.reverseRecOn with
  | nil =>
    refine ⟨rfl, List.Pairwise.nil, fun l => ?_⟩
    simp [AbortProcessor.collect_all, AbortProcessor.create, AbortableInfo.find, vertices_of]
  | append_singleton calls call ih =>
    obtain ⟨hlab, hsorted, hfind⟩ := ih
    have hstep : (AbortProcessor.create labels : AbortProcessor L V).collect_all (calls ++ [call]) =
        ((AbortProcessor.create labels : AbortProcessor L V).collect_all
          calls).collect_on_label_removal call.1 call.2 := by
      simp [AbortProcessor.collect_all, List.foldl_append]
    rw [hstep]
    have hs' : ((AbortProcessor.create labels : AbortProcessor L V).collect_all
        calls).label_.Pairwise (· ≤ ·) := by
      rw [hlab]
      exact hs
    by_cases hmem : call.1 ∈ labels
    · rw [collect_of_mem _ call.2 hs' (by rw [hlab]; exact hmem)]
      refine ⟨hlab, AbortableInfo.emplace_back_sorted _ _ _ hsorted, fun l => ?_⟩
      simp only
      by_cases hl : l = call.1
      · rw [hl, AbortableInfo.find_emplace_back_self _ _ _ hsorted, hfind, vertices_of_append]
        have hget : (if call.1 ∈ labels ∧ (vertices_of calls call.1).isEmpty = false then
            some (vertices_of calls call.1) else none).getD [] = vertices_of calls call.1 := by
          cases hempty : vertices_of calls call.1 with
          | nil => simp
          | cons v vs => simp [hmem]
        rw [hget]
        simp [hmem]
      · have hv : vertices_of (calls ++ [call]) l = vertices_of calls l := by
          rw [vertices_of_append]
          simp [Ne.symm hl]
        rw [AbortableInfo.find_emplace_back_of_ne hl, hfind, hv]
    · rw [collect_of_not_mem _ call.2 hs' (by rw [hlab]; exact hmem)]
      refine ⟨hlab, hsorted, fun l => ?_⟩
      by_cases hl : call.1 = l
      · rw [hfind, ← hl]
        simp [hmem]
      · have hv : vertices_of (calls ++ [call]) l = vertices_of calls l := by
          rw [vertices_of_append]
          simp [hl]
        rw [hfind, hv]

/-! ## The claim on `LabelIndex::AbortProcessor` -/

/-- C21. Let the label list of an `AbortProcessor` be sorted in ascending order.  A call
`collect_on_label_removal(label, vertex)` with a label of the list appends the vertex to
the end of the collection entry of that label (an entry that starts empty when there was
none) and leaves every other entry and the label list as they were; a call with a label
outside the list changes nothing.  Hence, after any sequence of calls on a processor
constructed with the list, every key of the collection is a label of the list, and the
entry of a label is the list of the vertices of the calls made with that label, in call
order. -/
theorem collect_on_label_removal_law {L V : Type} [LinearOrder L] (labels : List L)
    (hsorted : labels.Pairwise (· ≤ ·)) :
    (∀ (p : AbortProcessor L V) (label : L) (vertex : V), p.label_ = labels →
      p.cleanup_collection_.Pairwise (fun a b => a.1 < b.1) →
      (label ∈ labels →
        (p.collect_on_label_removal label vertex).label_ = labels ∧
        AbortableInfo.find label (p.collect_on_label_removal label vertex).cleanup_collection_ =
          some ((AbortableInfo.find label p.cleanup_collection_).getD [] ++ [vertex]) ∧
        ∀ k, k ≠ label →
          AbortableInfo.find k (p.collect_on_label_removal label vertex).cleanup_collection_ =
            AbortableInfo.find k p.cleanup_collection_) ∧
      (label ∉ labels → p.collect_on_label_removal label vertex = p)) ∧
    (∀ calls : List (L × V),
      ((AbortProcessor.create labels : AbortProcessor L V).collect_all calls).label_ = labels ∧
      (∀ k, k ∈ ((AbortProcessor.create labels : AbortProcessor L V).collect_all
          calls).cleanup_collection_.map Prod.fst → k ∈ labels) ∧
      (∀ l vs, AbortableInfo.find l
          ((AbortProcessor.create labels : AbortProcessor L V).collect_all
            calls).cleanup_collection_ = some vs → vs = vertices_of calls l) ∧
      (∀ l, l ∈ labels → vertices_of calls l ≠ [] →
        AbortableInfo.find l
          ((AbortProcessor.create labels : AbortProcessor L V).collect_all
            calls).cleanup_collection_ = some (vertices_of calls l))) := by
  constructor
  · intro p label vertex hlab hm
    have hs' : p.label_.Pairwise (· ≤ ·) := hlab ▸ hsorted
    constructor
    · intro hmem
      rw [collect_of_mem p vertex hs' (hlab ▸ hmem)]
      exact ⟨hlab, AbortableInfo.find_emplace_back_self _ _ _ hm,
        fun k hk => AbortableInfo.find_emplace_back_of_ne hk _ _⟩
    · intro hmem
      exact collect_of_not_mem p vertex hs' (hlab ▸ hmem)
  · intro calls
    obtain ⟨hlab, -, hfind⟩ := collect_all_spec (V := V) labels hsorted calls
    refine ⟨hlab, fun k hk => ?_, fun l vs hvs => ?_, fun l hl hne => ?_⟩
    · obtain ⟨vs, hvs⟩ := AbortableInfo.find_of_mem_keys hk
      rw [hfind] at hvs
      by_contra hcon
      simp [hcon] at hvs
    · rw [hfind] at hvs
      split at hvs
      · exact (Option.some.inj hvs).symm
      · exact Option.noConfusion hvs
    · rw [hfind]
      have hne' : (vertices_of calls l).isEmpty = false := by
        cases hv : vertices_of calls l with
        | nil => exact absurd hv hne
        | cons v vs => rfl
      simp [hl, hne']

/-- Witness of C21: the labels 1, 3, 5 and five calls, two of them with labels outside the
list; the collection has the entries of 1 and 3, with the vertices of 3 in call order. -/
theorem collect_on_label_removal_law_witness :
    ((AbortProcessor.create exLabels).collect_all exCalls).cleanup_collection_ =
      [(1, ["d"]), (3, ["a", "c"])] ∧
    (∀ k, k ∈ ((AbortProcessor.create exLabels).collect_all
        exCalls).cleanup_collection_.map Prod.fst → k ∈ exLabels) ∧
    AbortableInfo.find 3 ((AbortProcessor.create exLabels).collect_all
        exCalls).cleanup_collection_ = some (vertices_of exCalls 3) ∧
    vertices_of exCalls 3 = ["a", "c"] ∧
    (AbortProcessor.create exLabels : AbortProcessor Nat String).collect_on_label_removal 2 "b" =
      AbortProcessor.create exLabels :=
  have h := collect_on_label_removal_law (V := String) exLabels (by decide)
  ⟨rfl, (h.2 exCalls).2.1, (h.2 exCalls).2.2.2 3 (by decide) (by decide), by decide,
    (h.1 (AbortProcessor.create exLabels) 2 "b" rfl List.Pairwise.nil).2 (by decide)⟩

end storage

end memgraph
